import Mathlib

/-!
Verification development for the quartz-operator pre-cluster-destroy cleanup
pipeline.  The Go services package (LookupService, DeleteService, ScaleService,
CleanupService, UpdateService) and the PreClusterDestroyCleanup controller are
shallowly embedded as pure Lean functions over an explicit object-store state.

Modelling conventions:
  * The Kubernetes object store is a list of resources identified by
    (kind, namespace, name); `Spec.Replicas` (a *int32 in Go) is an
    `Option Int`, `none` standing for a nil pointer.
  * Every client call (Get / List / Delete / Update) is recorded in a call
    trace so that "no Update or Delete call reaches the store" is expressible.
    Get and List are read-only and deterministic; Delete and Update fail
    exactly on a missing key (the not-found error); transport faults are not
    modelled.
  * Go `error` values are `Option String` carrying the message built by the
    same format strings as the source; `errors.Join` of a message list is
    `none` on the empty list and the newline join otherwise, matching Go.
  * The RESTMapper two-strategy kind resolution (direct, then Kind.Group) is
    abstracted as a single name-keyed catalog lookup; no claim depends on the
    internal strategy order.
-/

namespace Quartz

/-- Resolved group/version/kind identity, mirroring `schema.GroupVersionKind`. -/
structure GVK where
  group : String
  version : String
  kind : String
deriving Repr, DecidableEq

/-- One object in the backing store.  `replicas` models `Spec.Replicas`
(a `*int32`); `none` is a nil pointer. -/
structure Resource where
  kind : String
  ns : String
  name : String
  replicas : Option Int
deriving Repr, DecidableEq

abbrev Store := List Resource

/-- A CustomResourceDefinition as consumed by `LookupCrdsByCategory`:
`crd.Spec.Group`, the first declared version, `crd.Spec.Names.Kind` and
`crd.Spec.Names.Categories`. -/
structure Crd where
  group : String
  version : String
  kind : String
  categories : List String
deriving Repr, DecidableEq

/-- One call issued against the object store. -/
inductive StoreCall where
  | get : String → String → String → StoreCall
  | list : String → String → StoreCall
  | delete : String → String → String → StoreCall
  | update : String → String → String → StoreCall
deriving Repr, DecidableEq

/-- The world a service invocation runs in: the object store, the installed
CRDs, and the trace of store calls issued so far. -/
structure World where
  store : Store
  crds : List Crd
  calls : List StoreCall
deriving Repr, DecidableEq

/-- The constants of the services package (`DeploymentKind`, ...); their
values are pinned by the string literals in the controller
(`gvk.Kind != "Deployment"`, `item.Action == "scaleToZero"`, ...). -/
def DeploymentKind : String := "Deployment"

def StatefulSetKind : String := "StatefulSet"

def CustomResourceDefinitionKind : String := "CustomResourceDefinition"

/-- Model of `cleanupv1alpha1.ActionDelete`; value pinned by the kubebuilder enum
`delete;scaleToZero` on the Action field. -/
def ActionDelete : String := "delete"

def ActionScaleToZero : String := "scaleToZero"

/-- Model of `cleanupv1alpha1.ActionUnknown` is the empty action string (the controller
compares `item.Action == ""` and its test labels ActionUnknown "Empty action"). -/
def ActionUnknown : String := ""

/-- Model of `cleanupv1alpha1.PreClusterDestroyCleanupItem`. -/
structure CleanupItem where
  kind : String
  ns : String
  name : String
  category : String
  action : String
deriving Repr, DecidableEq

/-- Identity key of a stored resource. -/
def resKey (r : Resource) : String × String × String := (r.kind, r.ns, r.name)

/-- Well-formed store: no two resources share a (kind, namespace, name) key,
as guaranteed by the Kubernetes API server. -/
def WF (st : Store) : Prop := (st.map resKey).Nodup

instance (st : Store) : Decidable (WF st) := by unfold WF; infer_instance

/-- Key match used by Get / Delete / Update. -/
def keyIs (kind ns name : String) (r : Resource) : Bool :=
  r.kind == kind && r.ns == ns && r.name == name

/-- Pure lookup of a resource by key (the store's view of `client.Get`). -/
def getResource (st : Store) (kind ns name : String) : Option Resource :=
  st.find? (keyIs kind ns name)

/-- Removal of a key from the store (the store's view of `client.Delete`). -/
def removeResource (st : Store) (kind ns name : String) : Store :=
  st.filter (fun r => !(keyIs kind ns name r))

/-- Replica update of a key (the store's view of `client.Update` after the
service assigned `Spec.Replicas`). -/
def setReplicas (st : Store) (kind ns name : String) (reps : Option Int) : Store :=
  st.map (fun r => if keyIs kind ns name r then { r with replicas := reps } else r)

/-- Append a call to the trace. -/
def trace (w : World) (c : StoreCall) : World :=
  { w with calls := w.calls ++ [c] }

/-- Model of `client.Get`: read-only; `none` is the not-found error. -/
def clientGet (w : World) (kind ns name : String) : Option Resource × World :=
  (getResource w.store kind ns name, trace w (.get kind ns name))

/-- Model of `client.Delete`: fails (returns `false`) exactly when the key is absent. -/
def clientDelete (w : World) (kind ns name : String) : Bool × World :=
  if (getResource w.store kind ns name).isSome then
    (true, { (trace w (.delete kind ns name)) with
              store := removeResource w.store kind ns name })
  else
    (false, trace w (.delete kind ns name))

/-- Model of `client.Update` persisting a replica change: fails exactly when absent. -/
def clientUpdate (w : World) (kind ns name : String) (reps : Option Int) :
    Bool × World :=
  if (getResource w.store kind ns name).isSome then
    (true, { (trace w (.update kind ns name)) with
              store := setReplicas w.store kind ns name reps })
  else
    (false, trace w (.update kind ns name))

/-- Model of `errors.Join`: nil iff the error list is empty, otherwise one error whose
message is the newline join of the parts. -/
def joinErrs (errs : List String) : Option String :=
  if errs.isEmpty then none else some (String.intercalate "\n" errs)

/-- Rendering of `%v` applied to a PreClusterDestroyCleanupItem.  The exact
shape is irrelevant to every claim; only the fixed message text before it is. -/
def itemStr (item : CleanupItem) : String :=
  item.kind ++ " " ++ item.ns ++ " " ++ item.name ++ " " ++ item.category
    ++ " " ++ item.action

/-- The type catalog backing `LookupGroupKind`, keyed by the item's Kind
string.  The two RESTMapper strategies are folded into one association list. -/
abbrev Catalog := List (String × GVK)

/-- Model of `LookupService.LookupGroupKind` (and the controller's `lookupGroupKind`):
`none` models the "failed to find mapping for kind" error. -/
def LookupGroupKind (cat : Catalog) (kind : String) : Option GVK :=
  (cat.find? (fun p => p.1 == kind)).map (·.2)

/-- ASCII lower-casing of one character (the computable model of Unicode
simple case folding used by `strings.EqualFold`). -/
def lowerChar (c : Char) : Char :=
  if 'A' ≤ c && c ≤ 'Z' then Char.ofNat (c.toNat + 32) else c

/-- Model of `strings.EqualFold`, modelled as case-insensitive equality. -/
def eqFold (a b : String) : Bool := a.data.map lowerChar == b.data.map lowerChar

/-- Model of `LookupService.LookupCrdsByCategory`: all installed CRDs whose category
list contains `category` case-insensitively, mapped to (group, first declared
version, kind). -/
def LookupCrdsByCategory (w : World) (category : String) : List GVK :=
  (w.crds.filter (fun crd => crd.categories.any (fun c => eqFold c category))).map
    (fun crd => { group := crd.group, version := crd.version, kind := crd.kind })

/-- Version defaulting applied by `ListResources` (`"" ↦ "v1"`). -/
def defaultVersion (v : String) : String := if v == "" then "v1" else v

/-- Model of `LookupService.ListResources` (and the controller's `listResources`):
lists every instance of the kind, restricted to `ns` when non-empty.  The
model identifies types by kind, so the defaulted version does not affect the
filter; List itself never fails in the model. -/
def ListResources (w : World) (gvk : GVK) (ns : String) : List Resource × World :=
  let res := w.store.filter (fun r => r.kind == gvk.kind && (ns == "" || r.ns == ns))
  (res, trace w (.list gvk.kind ns))

/-- Model of `DeleteService.DeleteNamedResource` (and the controller's
`cleanupNamedResource`): Get first — a fetch failure, not-found included, is
`(0, error)`; in dry-run return `(1, nil)` without deleting; otherwise delete. -/
def DeleteNamedResource (w : World) (dryRun : Bool) (gvk : GVK) (ns name : String) :
    (Nat × Option String) × World :=
  let g := clientGet w gvk.kind ns name
  match g.1 with
  | none => ((0, some ("failed to get " ++ ns ++ "/" ++ name ++ ": not found")), g.2)
  | some item =>
    if dryRun then ((1, none), g.2)
    else
      let d := clientDelete g.2 gvk.kind item.ns item.name
      if d.1 then ((1, none), d.2)
      else ((0, some ("failed to delete " ++ item.ns ++ "/" ++ item.name
                        ++ ": delete error")), d.2)

/-- The delete loop inside `DeleteService.DeleteResources`: per-item failures
are recorded and do not stop the remaining deletions; count is the number of
successful deletions. -/
def deleteLoop (w : World) (kind : String) : List Resource → (Nat × List String) × World
  | [] => ((0, []), w)
  | item :: rest =>
    let d := clientDelete w kind item.ns item.name
    let r := deleteLoop d.2 kind rest
    if d.1 then ((r.1.1 + 1, r.1.2), r.2)
    else ((r.1.1, ("failed to delete " ++ item.ns ++ "/" ++ item.name
                ++ ": delete error") :: r.1.2), r.2)

/-- Model of `DeleteService.DeleteResources` (and the controller's `cleanupResources`):
bulk delete of every instance of the kind in the namespace.  Zero matches is
`(0, nil)`; dry-run returns the match count without deleting. -/
def DeleteResources (w : World) (dryRun : Bool) (gvk : GVK) (ns : String) :
    (Nat × Option String) × World :=
  let lr := ListResources w gvk ns
  if lr.1.length == 0 then ((0, none), lr.2)
  else if dryRun then ((lr.1.length, none), lr.2)
  else
    let r := deleteLoop lr.2 gvk.kind lr.1
    ((r.1.1, joinErrs r.1.2), r.2)

/-- The per-resolved-type loop inside `DeleteItem`'s CRD/category branch: on a
per-type error the wrapped error is recorded and that type's count is skipped
(`continue` before `count += c`). -/
def crdDeleteLoop (w : World) (dryRun : Bool) (ns : String) :
    List GVK → (Nat × List String) × World
  | [] => ((0, []), w)
  | gvk :: rest =>
    let d := DeleteResources w dryRun gvk ns
    let r := crdDeleteLoop d.2 dryRun ns rest
    match d.1.2 with
    | some e =>
      ((r.1.1, ("failed to cleanup resources of kind " ++ gvk.kind
                  ++ " in namespace " ++ ns ++ ": " ++ e) :: r.1.2), r.2)
    | none => ((d.1.1 + r.1.1, r.1.2), r.2)

/-- Model of `DeleteService.DeleteItem`: dispatch between the CRD-category bulk path,
the unnamed bulk path and the named path. -/
def DeleteItem (w : World) (dryRun : Bool) (gvk : GVK) (item : CleanupItem) :
    (Nat × Option String) × World :=
  if gvk.kind == CustomResourceDefinitionKind && item.category != "" then
    let gvks := LookupCrdsByCategory w item.category
    if gvks.length == 0 then
      ((0, some ("no CRDs found for category " ++ item.category)), w)
    else
      let r := crdDeleteLoop w dryRun item.ns gvks
      ((r.1.1, joinErrs r.1.2), r.2)
  else if item.name == "" then
    let d := DeleteResources w dryRun gvk item.ns
    match d.1.2 with
    | some e =>
      ((d.1.1, some ("failed to cleanup resources of kind " ++ item.kind
                  ++ " in namespace " ++ item.ns ++ ": " ++ e)), d.2)
    | none => ((d.1.1, none), d.2)
  else
    let d := DeleteNamedResource w dryRun gvk item.ns item.name
    match d.1.2 with
    | some e =>
      ((d.1.1, some ("failed to cleanup named resource " ++ item.ns ++ "/"
                  ++ item.name ++ ": " ++ e)), d.2)
    | none => ((d.1.1, none), d.2)

/-- Model of `ScaleService.ScaleDeployment`: empty name is a no-op `(0, nil)`; the
dry-run check comes BEFORE the Get (matching the source order), so dry-run
returns `(1, nil)` without fetching; otherwise Get (failure, not-found
included, is `(0, error)`), assign `Spec.Replicas` and Update. -/
def ScaleDeployment (w : World) (dryRun : Bool) (ns name : String)
    (replicas : Option Int) : (Nat × Option String) × World :=
  if name == "" then ((0, none), w)
  else if dryRun then ((1, none), w)
  else
    let g := clientGet w DeploymentKind ns name
    match g.1 with
    | none => ((0, some ("failed to get " ++ ns ++ "/" ++ name ++ ": not found")), g.2)
    | some _ =>
      let u := clientUpdate g.2 DeploymentKind ns name replicas
      if u.1 then ((1, none), u.2)
      else ((0, some ("failed to scale " ++ ns ++ "/" ++ name ++ ": update error")), u.2)

/-- Model of `ScaleService.ScaleStatefulSet`: same shape as `ScaleDeployment`. -/
def ScaleStatefulSet (w : World) (dryRun : Bool) (ns name : String)
    (replicas : Option Int) : (Nat × Option String) × World :=
  if name == "" then ((0, none), w)
  else if dryRun then ((1, none), w)
  else
    let g := clientGet w StatefulSetKind ns name
    match g.1 with
    | none => ((0, some ("failed to get " ++ ns ++ "/" ++ name ++ ": not found")), g.2)
    | some _ =>
      let u := clientUpdate g.2 StatefulSetKind ns name replicas
      if u.1 then ((1, none), u.2)
      else ((0, some ("failed to scale " ++ ns ++ "/" ++ name ++ ": update error")), u.2)

/-- Model of `ScaleService.ScaleKind`: dispatch on the resolved kind. -/
def ScaleKind (w : World) (dryRun : Bool) (gvk : GVK) (ns name : String)
    (replicas : Option Int) : (Nat × Option String) × World :=
  if gvk.kind == DeploymentKind then ScaleDeployment w dryRun ns name replicas
  else if gvk.kind == StatefulSetKind then ScaleStatefulSet w dryRun ns name replicas
  else ((0, some ("replica scaling is not supported for kind " ++ gvk.kind)), w)

/-- The per-instance loop inside `ScaleItem`'s bulk path: the count returned
by each `ScaleKind` call is added even when it also returned an error
(`count += c` runs unconditionally in the source). -/
def scaleLoop (w : World) (dryRun : Bool) (gvk : GVK) (replicas : Option Int) :
    List Resource → (Nat × List String) × World
  | [] => ((0, []), w)
  | i :: rest =>
    let s := ScaleKind w dryRun gvk i.ns i.name replicas
    let r := scaleLoop s.2 dryRun gvk replicas rest
    match s.1.2 with
    | some e =>
      ((s.1.1 + r.1.1,
        ("failed to scale " ++ i.ns ++ "/" ++ i.name ++ ": " ++ e) :: r.1.2), r.2)
    | none => ((s.1.1 + r.1.1, r.1.2), r.2)

/-- Model of `ScaleService.ScaleItem`: unsupported kinds are rejected before any
lookup; a named item delegates to `ScaleKind` (its count is dropped to 0 on
error); otherwise list and scale each match with continue-on-error. -/
def ScaleItem (w : World) (dryRun : Bool) (gvk : GVK) (item : CleanupItem)
    (replicas : Option Int) : (Nat × Option String) × World :=
  if gvk.kind != DeploymentKind && gvk.kind != StatefulSetKind then
    ((0, some ("scaling is not supported for kind " ++ gvk.kind)), w)
  else if item.name != "" then
    let s := ScaleKind w dryRun gvk item.ns item.name replicas
    match s.1.2 with
    | some e =>
      ((0, some ("failed to scale " ++ item.ns ++ "/" ++ item.name ++ ": " ++ e)), s.2)
    | none => ((s.1.1, none), s.2)
  else
    let lr := ListResources w gvk item.ns
    if lr.1.length == 0 then ((0, none), lr.2)
    else
      let r := scaleLoop lr.2 dryRun gvk replicas lr.1
      ((r.1.1, joinErrs r.1.2), r.2)

/-- One iteration of the loop in `CleanupService.CleanupItems`: validation,
kind resolution, then the four-way action switch.  Returns the item's count
contribution and the (0- or 1-element) list of errors it appended. -/
def processItem (w : World) (cat : Catalog) (dryRun : Bool) (item : CleanupItem) :
    (Nat × List String) × World :=
  if item.kind == "" then
    ((0, ["kind must be specified for item: " ++ itemStr item]), w)
  else
    match LookupGroupKind cat item.kind with
    | none =>
      ((0, ["failed to lookup group and kind for " ++ item.kind
              ++ ": failed to find mapping for kind " ++ item.kind]), w)
    | some gvk =>
      if item.action == ActionScaleToZero then
        let s := ScaleItem w dryRun gvk item (some 0)
        match s.1.2 with
        | some e =>
          ((s.1.1, ["failed to scale " ++ item.ns ++ "/" ++ item.name
                      ++ " to zero: " ++ e]), s.2)
        | none => ((s.1.1, []), s.2)
      else if item.action == ActionDelete then
        let d := DeleteItem w dryRun gvk item
        match d.1.2 with
        | some e =>
          ((d.1.1, ["failed to delete " ++ item.ns ++ "/" ++ item.name ++ ": " ++ e]), d.2)
        | none => ((d.1.1, []), d.2)
      else if item.action == ActionUnknown then
        ((0, ["action must be specified for item: " ++ itemStr item]), w)
      else
        ((0, ["unsupported action for item: " ++ itemStr item]), w)

/-- The item loop of `CleanupService.CleanupItems`: counts accumulate and
errors append; no early exit. -/
def cleanupLoop (cat : Catalog) (dryRun : Bool) :
    World → List CleanupItem → (Nat × List String) × World
  | w, [] => ((0, []), w)
  | w, item :: rest =>
    let p := processItem w cat dryRun item
    let r := cleanupLoop cat dryRun p.2 rest
    ((p.1.1 + r.1.1, p.1.2 ++ r.1.2), r.2)

/-- Model of `CleanupService.CleanupItems` (the Orchestrator's Process): runs the item
loop, then returns the count with `nil`, or with the single
"N errors occurred during processing" error wrapping the join. -/
def CleanupItems (w : World) (cat : Catalog) (dryRun : Bool)
    (items : List CleanupItem) : (Nat × Option String) × World :=
  let r := cleanupLoop cat dryRun w items
  if r.1.2.length > 0 then
    ((r.1.1, some (toString r.1.2.length ++ " errors occurred during processing: "
                    ++ String.intercalate "\n" r.1.2)), r.2)
  else ((r.1.1, none), r.2)

/-! ### Status conditions -/

/-- A `metav1.Condition` as written by this operator (Status is always True
on write; LastTransitionTime/ObservedGeneration are outside the model). -/
structure Condition where
  type_ : String
  status : Bool
  reason : String
  message : String
deriving Repr, DecidableEq

/-- Model of `meta.SetStatusCondition`: update the first existing condition with the
same Type in place (Status/Reason/Message), or append when absent. -/
def setStatusCondition : List Condition → Condition → List Condition
  | [], c => [c]
  | x :: xs, c =>
    if x.type_ == c.type_ then
      { x with status := c.status, reason := c.reason, message := c.message } :: xs
    else x :: setStatusCondition xs c

/-- Model of `meta.FindStatusCondition`. -/
def findStatusCondition (conds : List Condition) (t : String) : Option Condition :=
  conds.find? (fun c => c.type_ == t)

/-- The PreClusterDestroyCleanup object as the controller sees it:
`Spec.DryRun`, `Spec.Resources` and `Status.Conditions`. -/
structure CleanupObject where
  dryRun : Bool
  resources : List CleanupItem
  conditions : List Condition
deriving Repr, DecidableEq

/-- Model of `UpdateService.UpdateCondition` / the controller's `updateCondition`:
merge the condition by Type with Status=True and persist (the status write
itself is modelled as always succeeding). -/
def updateCondition (obj : CleanupObject) (t reason message : String) : CleanupObject :=
  { obj with
      conditions := setStatusCondition obj.conditions (Condition.mk t true reason message) }

/-! ### The controller's inline reconcile loop

`PreClusterDestroyCleanupReconciler.Reconcile` carries its own copies of the
service logic.  `lookupGroupKind`, `lookupCrdsByCategory`, `listResources`,
`cleanupResources` and `cleanupNamedResource` are textually identical (modulo
logging) to `LookupGroupKind`, `LookupCrdsByCategory`, `ListResources`,
`DeleteResources` and `DeleteNamedResource`, so those embeddings are shared.
The scale path differs: `scaleDeploymentToZero`/`scaleStatefulSetToZero` set
`Spec.Replicas = nil` (not 0) before the Update. -/

/-- The controller's `scaleDeploymentToZero`: redundant kind guard, empty-name
no-op, dry-run before Get, then Get and an Update that assigns
`deployment.Spec.Replicas = nil`. -/
def scaleDeploymentToZero (w : World) (dryRun : Bool) (gvk : GVK) (ns name : String) :
    (Nat × Option String) × World :=
  if gvk.kind != "Deployment" then
    ((0, some ("scaling to zero is not supported for kind " ++ gvk.kind)), w)
  else if name == "" then ((0, none), w)
  else if dryRun then ((1, none), w)
  else
    let g := clientGet w "Deployment" ns name
    match g.1 with
    | none => ((0, some ("failed to get " ++ ns ++ "/" ++ name ++ ": not found")), g.2)
    | some _ =>
      let u := clientUpdate g.2 "Deployment" ns name none
      if u.1 then ((1, none), u.2)
      else ((0, some ("failed to scale " ++ ns ++ "/" ++ name
                        ++ " to zero: update error")), u.2)

/-- The controller's `scaleStatefulSetToZero`, same shape. -/
def scaleStatefulSetToZero (w : World) (dryRun : Bool) (gvk : GVK) (ns name : String) :
    (Nat × Option String) × World :=
  if gvk.kind != "StatefulSet" then
    ((0, some ("scaling to zero is not supported for kind " ++ gvk.kind)), w)
  else if name == "" then ((0, none), w)
  else if dryRun then ((1, none), w)
  else
    let g := clientGet w "StatefulSet" ns name
    match g.1 with
    | none => ((0, some ("failed to get " ++ ns ++ "/" ++ name ++ ": not found")), g.2)
    | some _ =>
      let u := clientUpdate g.2 "StatefulSet" ns name none
      if u.1 then ((1, none), u.2)
      else ((0, some ("failed to scale " ++ ns ++ "/" ++ name
                        ++ " to zero: update error")), u.2)

/-- The controller's `scaleResourceToZero` dispatch. -/
def scaleResourceToZero (w : World) (dryRun : Bool) (gvk : GVK) (ns name : String) :
    (Nat × Option String) × World :=
  if gvk.kind == "Deployment" then scaleDeploymentToZero w dryRun gvk ns name
  else if gvk.kind == "StatefulSet" then scaleStatefulSetToZero w dryRun gvk ns name
  else ((0, some ("scaling to zero is not supported for kind " ++ gvk.kind)), w)

/-- The bulk loop of the controller's `scaleToZero`. -/
def scaleToZeroLoop (w : World) (dryRun : Bool) (gvk : GVK) :
    List Resource → (Nat × List String) × World
  | [] => ((0, []), w)
  | i :: rest =>
    let s := scaleResourceToZero w dryRun gvk i.ns i.name
    let r := scaleToZeroLoop s.2 dryRun gvk rest
    match s.1.2 with
    | some e =>
      ((s.1.1 + r.1.1, ("failed to scale " ++ i.ns ++ "/" ++ i.name
                      ++ " to zero: " ++ e) :: r.1.2), r.2)
    | none => ((s.1.1 + r.1.1, r.1.2), r.2)

/-- The controller's `scaleToZero`. -/
def scaleToZero (w : World) (dryRun : Bool) (gvk : GVK) (ns name : String) :
    (Nat × Option String) × World :=
  if gvk.kind != "Deployment" && gvk.kind != "StatefulSet" then
    ((0, some ("scaling to zero is not supported for kind " ++ gvk.kind)), w)
  else if name != "" then
    let s := scaleResourceToZero w dryRun gvk ns name
    match s.1.2 with
    | some e =>
      ((0, some ("failed to scale " ++ ns ++ "/" ++ name ++ " to zero: " ++ e)), s.2)
    | none => ((s.1.1, none), s.2)
  else
    let lr := ListResources w gvk ns
    if lr.1.length == 0 then ((0, none), lr.2)
    else
      let r := scaleToZeroLoop lr.2 dryRun gvk lr.1
      ((r.1.1, joinErrs r.1.2), r.2)

/-- The CRD/category loop inside the controller's Reconcile (same skip-count-
on-error policy as `DeleteItem`'s). -/
def reconcileCrdLoop (w : World) (dryRun : Bool) (ns : String) :
    List GVK → (Nat × List String) × World
  | [] => ((0, []), w)
  | gvk :: rest =>
    let d := DeleteResources w dryRun gvk ns
    let r := reconcileCrdLoop d.2 dryRun ns rest
    match d.1.2 with
    | some e =>
      ((r.1.1, ("failed to cleanup resources of kind " ++ gvk.kind
                  ++ " in namespace " ++ ns ++ ": " ++ e) :: r.1.2), r.2)
    | none => ((d.1.1 + r.1.1, r.1.2), r.2)

/-- One iteration of the item loop inlined in the controller's Reconcile.
Order differs from `processItem`: the empty-action check precedes the
dispatch, and ANY non-empty action other than "scaleToZero" falls through to
the delete paths. -/
def reconcileItem (w : World) (cat : Catalog) (dryRun : Bool) (item : CleanupItem) :
    (Nat × List String) × World :=
  if item.kind == "" then
    ((0, ["kind must be specified for item: " ++ itemStr item]), w)
  else
    match LookupGroupKind cat item.kind with
    | none =>
      ((0, ["failed to lookup group and kind for " ++ item.kind
              ++ ": failed to find mapping for kind " ++ item.kind]), w)
    | some gvk =>
      if item.action == "" then
        ((0, ["action must be specified for item: " ++ itemStr item]), w)
      else if item.action == "scaleToZero" then
        let s := scaleToZero w dryRun gvk item.ns item.name
        match s.1.2 with
        | some e =>
          ((s.1.1, ["failed to scale " ++ item.ns ++ "/" ++ item.name
                      ++ " to zero: " ++ e]), s.2)
        | none => ((s.1.1, []), s.2)
      else if gvk.kind == "CustomResourceDefinition" && item.category != "" then
        let gvks := LookupCrdsByCategory w item.category
        if gvks.length == 0 then
          ((0, ["no CRDs found for category " ++ item.category]), w)
        else
          let r := reconcileCrdLoop w dryRun item.ns gvks
          ((r.1.1, r.1.2), r.2)
      else if item.name == "" then
        let d := DeleteResources w dryRun gvk item.ns
        match d.1.2 with
        | some e =>
          ((d.1.1, ["failed to cleanup resources of kind " ++ item.kind
                  ++ " in namespace " ++ item.ns ++ ": " ++ e]), d.2)
        | none => ((d.1.1, []), d.2)
      else
        let d := DeleteNamedResource w dryRun gvk item.ns item.name
        match d.1.2 with
        | some e =>
          ((d.1.1, ["failed to cleanup named resource " ++ item.ns ++ "/"
                  ++ item.name ++ ": " ++ e]), d.2)
        | none => ((d.1.1, []), d.2)

/-- The item loop of the controller's Reconcile. -/
def reconcileLoop (cat : Catalog) (dryRun : Bool) :
    World → List CleanupItem → (Nat × List String) × World
  | w, [] => ((0, []), w)
  | w, item :: rest =>
    let p := reconcileItem w cat dryRun item
    let r := reconcileLoop cat dryRun p.2 rest
    ((p.1.1 + r.1.1, p.1.2 ++ r.1.2), r.2)

/-- Model of `PreClusterDestroyCleanupReconciler.Reconcile` after a successful fetch of
the object: initialize conditions when empty, handle the empty-resources
terminal state, otherwise run the loop and write the Complete condition.
Status persistence and the re-fetch are modelled as always succeeding.
Returns the updated object and the pass's returned error. -/
def Reconcile (w : World) (cat : Catalog) (obj : CleanupObject) :
    (CleanupObject × Option String) × World :=
  let obj :=
    if obj.conditions.length == 0 then
      updateCondition obj "Initialized" "Reconciling" "Reconciliation started"
    else obj
  if obj.resources.length == 0 then
    ((updateCondition obj "Complete" "NoResources"
        "No resources specified for cleanup", none), w)
  else
    let r := reconcileLoop cat obj.dryRun w obj.resources
    if r.1.2.length > 0 then
      ((updateCondition obj "Complete" "CompletedWithErrors"
          ("Errors occurred during cleanup: " ++ toString r.1.2.length ++ " errors"),
        joinErrs r.1.2), r.2)
    else
      ((updateCondition obj "Complete" "CompletedSuccessfully"
          ("Cleaned up " ++ toString r.1.1 ++ " resources"), none), r.2)

/-! ### Observers used by the theorem statements -/

/-- Is a store call a mutation (Delete or Update)? -/
def isMutCall : StoreCall → Bool
  | .delete _ _ _ => true
  | .update _ _ _ => true
  | _ => false

/-- The mutating calls a world has seen. -/
def mutCalls (w : World) : List StoreCall := w.calls.filter isMutCall

/-- Leading-match of char lists. -/
def listLE : List Char → List Char → Bool
  | [], _ => true
  | _ :: _, [] => false
  | a :: as, b :: bs => a == b && listLE as bs

/-- Occurrence of `p` anywhere in `s`. -/
def subChars (p : List Char) : List Char → Bool
  | [] => listLE p []
  | c :: rest => listLE p (c :: rest) || subChars p rest

/-- Substring test: does `s` contain `sub`? -/
def strContains (s sub : String) : Bool := subChars sub.data s.data

/-- The per-item results of the orchestrator loop, as an observer: the count
and error list each item contributed, in order, threading the world exactly
as `cleanupLoop` does. -/
def perItemResults (cat : Catalog) (dryRun : Bool) :
    World → List CleanupItem → List (Nat × List String)
  | _, [] => []
  | w, i :: rest =>
    let p := processItem w cat dryRun i
    p.1 :: perItemResults cat dryRun p.2 rest

/-- The per-resolved-type results of the CRD/category bulk delete, as an
observer threading the world exactly as `crdDeleteLoop` does. -/
def perTypeResults (dryRun : Bool) (ns : String) :
    World → List GVK → List (Nat × Option String)
  | _, [] => []
  | w, g :: rest =>
    let d := DeleteResources w dryRun g ns
    d.1 :: perTypeResults dryRun ns d.2 rest

/-! ### Basic lemmas about the world and the client primitives -/

theorem trace_store (w : World) (c : StoreCall) : (trace w c).store = w.store := rfl

theorem mutCalls_trace_get (w : World) (k n m : String) :
    mutCalls (trace w (.get k n m)) = mutCalls w := by
  simp [mutCalls, trace, List.filter_append, isMutCall]

theorem mutCalls_trace_list (w : World) (k n : String) :
    mutCalls (trace w (.list k n)) = mutCalls w := by
  simp [mutCalls, trace, List.filter_append, isMutCall]

/-- The result of `List.find?` is unchanged by filtering with a predicate implied by the
search predicate. -/
theorem find?_filter_of_imp {α : Type} (p q : α → Bool) (l : List α)
    (h : ∀ x, p x = true → q x = true) : (l.filter q).find? p = l.find? p := by
  induction l with
  | nil => rfl
  | cons a l ih =>
    by_cases hp : p a = true
    · simp [List.filter_cons, h a hp, List.find?_cons, hp]
    · rw [Bool.not_eq_true] at hp
      by_cases hq : q a = true
      · simp [List.filter_cons, hq, List.find?_cons, hp, ih]
      · rw [Bool.not_eq_true] at hq
        simp [List.filter_cons, hq, List.find?_cons, hp, ih]

/-- Removing one key leaves lookups of any other key unchanged. -/
theorem getResource_removeResource_ne (st : Store) (k ns n k' ns' n' : String)
    (h : (k, ns, n) ≠ (k', ns', n')) :
    getResource (removeResource st k' ns' n') k ns n = getResource st k ns n := by
  unfold getResource removeResource
  apply find?_filter_of_imp
  intro r hr
  simp only [keyIs, Bool.and_eq_true, beq_iff_eq] at hr
  obtain ⟨⟨h1, h2⟩, h3⟩ := hr
  cases ht : keyIs k' ns' n' r with
  | false => simp [ht]
  | true =>
    exfalso
    simp only [keyIs, Bool.and_eq_true, beq_iff_eq] at ht
    obtain ⟨⟨g1, g2⟩, g3⟩ := ht
    exact h (by rw [← h1, ← h2, ← h3, g1, g2, g3])

/-- The replica updater leaves the key fields untouched. -/
theorem keyIs_setRep (k ns n k' ns' n' : String) (reps : Option Int) (r : Resource) :
    keyIs k ns n (if keyIs k' ns' n' r = true then { r with replicas := reps } else r)
      = keyIs k ns n r := by
  by_cases h : keyIs k' ns' n' r = true
  · rw [if_pos h]
    simp [keyIs]
  · rw [if_neg h]

/-- A replica update never changes which keys are present. -/
theorem getResource_setReplicas_isSome (st : Store) (k ns n k' ns' n' : String)
    (reps : Option Int) :
    (getResource (setReplicas st k' ns' n' reps) k ns n).isSome
      = (getResource st k ns n).isSome := by
  unfold getResource setReplicas
  rw [List.find?_map]
  have hp : (keyIs k ns n ∘ fun r =>
      if keyIs k' ns' n' r = true then { r with replicas := reps } else r)
      = keyIs k ns n := by
    funext r
    exact keyIs_setRep k ns n k' ns' n' reps r
  rw [hp]
  simp

/-- Looking up the updated key returns the stored resource with the new
replica value. -/
theorem getResource_setReplicas_self (st : Store) (k ns n : String) (reps : Option Int) :
    getResource (setReplicas st k ns n reps) k ns n
      = (getResource st k ns n).map (fun r => { r with replicas := reps }) := by
  unfold getResource setReplicas
  rw [List.find?_map]
  have hp : (keyIs k ns n ∘ fun r =>
      if keyIs k ns n r = true then { r with replicas := reps } else r)
      = keyIs k ns n := by
    funext r
    exact keyIs_setRep k ns n k ns n reps r
  rw [hp]
  cases hf : st.find? (keyIs k ns n) with
  | none => rfl
  | some r =>
    have hr : keyIs k ns n r = true := List.find?_some hf
    simp [hr]

/-! ### Dry-run runs read-only: characterizations of the `dryRun = true` paths -/

/-- Observational equality of worlds for the dry-run claims: same store, same
CRDs, same mutating calls (read calls may differ). -/
def WorldObs (w w' : World) : Prop :=
  w'.store = w.store ∧ w'.crds = w.crds ∧ mutCalls w' = mutCalls w

theorem worldObs_refl (w : World) : WorldObs w w := ⟨rfl, rfl, rfl⟩

theorem worldObs_trans {w w' w'' : World} (h1 : WorldObs w w') (h2 : WorldObs w' w'') :
    WorldObs w w'' :=
  ⟨h2.1.trans h1.1, h2.2.1.trans h1.2.1, h2.2.2.trans h1.2.2⟩

theorem worldObs_trace_get (w : World) (k n m : String) :
    WorldObs w (trace w (.get k n m)) :=
  ⟨rfl, rfl, mutCalls_trace_get w k n m⟩

theorem worldObs_trace_list (w : World) (k n : String) :
    WorldObs w (trace w (.list k n)) :=
  ⟨rfl, rfl, mutCalls_trace_list w k n⟩

theorem dnr_true_snd (w : World) (gvk : GVK) (ns name : String) :
    (DeleteNamedResource w true gvk ns name).2 = trace w (.get gvk.kind ns name) := by
  unfold DeleteNamedResource clientGet
  cases getResource w.store gvk.kind ns name <;> rfl

theorem dres_true_snd (w : World) (gvk : GVK) (ns : String) :
    (DeleteResources w true gvk ns).2 = trace w (.list gvk.kind ns) := by
  unfold DeleteResources ListResources
  dsimp only
  split <;> rfl

theorem dnr_true_world (w : World) (gvk : GVK) (ns name : String) :
    WorldObs w (DeleteNamedResource w true gvk ns name).2 := by
  rw [dnr_true_snd]
  exact worldObs_trace_get w gvk.kind ns name

theorem dres_true_world (w : World) (gvk : GVK) (ns : String) :
    WorldObs w (DeleteResources w true gvk ns).2 := by
  rw [dres_true_snd]
  exact worldObs_trace_list w gvk.kind ns

theorem crdDeleteLoop_true_world (ns : String) (gs : List GVK) (w : World) :
    WorldObs w (crdDeleteLoop w true ns gs).2 := by
  induction gs generalizing w with
  | nil => exact worldObs_refl w
  | cons g rest ih =>
    have h2 := worldObs_trans (dres_true_world w g ns) (ih (DeleteResources w true g ns).2)
    cases he : (DeleteResources w true g ns).1.2 with
    | none => simpa [crdDeleteLoop, he] using h2
    | some e => simpa [crdDeleteLoop, he] using h2

theorem deleteItem_true_world (w : World) (gvk : GVK) (item : CleanupItem) :
    WorldObs w (DeleteItem w true gvk item).2 := by
  unfold DeleteItem
  split
  · dsimp only
    split
    · exact worldObs_refl w
    · exact crdDeleteLoop_true_world item.ns (LookupCrdsByCategory w item.category) w
  · split
    · cases he : (DeleteResources w true gvk item.ns).1.2 with
      | none => simpa [he] using dres_true_world w gvk item.ns
      | some e => simpa [he] using dres_true_world w gvk item.ns
    · cases he : (DeleteNamedResource w true gvk item.ns item.name).1.2 with
      | none => simpa [he] using dnr_true_world w gvk item.ns item.name
      | some e => simpa [he] using dnr_true_world w gvk item.ns item.name

theorem scaleKind_true_snd (w : World) (gvk : GVK) (ns name : String)
    (reps : Option Int) : (ScaleKind w true gvk ns name reps).2 = w := by
  unfold ScaleKind ScaleDeployment ScaleStatefulSet
  split
  · split <;> rfl
  · split
    · split <;> rfl
    · rfl

theorem scaleLoop_true_world (gvk : GVK) (reps : Option Int) (l : List Resource)
    (w : World) : WorldObs w (scaleLoop w true gvk reps l).2 := by
  induction l generalizing w with
  | nil => exact worldObs_refl w
  | cons i rest ih =>
    have h2 := ih (ScaleKind w true gvk i.ns i.name reps).2
    rw [scaleKind_true_snd] at h2
    cases he : (ScaleKind w true gvk i.ns i.name reps).1.2 with
    | none =>
      simpa [scaleLoop, he, scaleKind_true_snd] using h2
    | some e =>
      simpa [scaleLoop, he, scaleKind_true_snd] using h2

theorem scaleItem_true_world (w : World) (gvk : GVK) (item : CleanupItem)
    (reps : Option Int) : WorldObs w (ScaleItem w true gvk item reps).2 := by
  unfold ScaleItem
  split
  · exact worldObs_refl w
  · split
    · cases he : (ScaleKind w true gvk item.ns item.name reps).1.2 with
      | none => simpa [he, scaleKind_true_snd] using worldObs_refl w
      | some e => simpa [he, scaleKind_true_snd] using worldObs_refl w
    · dsimp only
      split
      · exact worldObs_trace_list w gvk.kind item.ns
      · exact worldObs_trans (worldObs_trace_list w gvk.kind item.ns)
          (scaleLoop_true_world gvk reps (ListResources w gvk item.ns).1
            (trace w (.list gvk.kind item.ns)))

theorem processItem_true_world (w : World) (cat : Catalog) (item : CleanupItem) :
    WorldObs w (processItem w cat true item).2 := by
  unfold processItem
  split
  · exact worldObs_refl w
  · cases LookupGroupKind cat item.kind with
    | none => exact worldObs_refl w
    | some gvk =>
      simp only
      split
      · cases he : (ScaleItem w true gvk item (some 0)).1.2 with
        | none => simpa [he] using scaleItem_true_world w gvk item (some 0)
        | some e => simpa [he] using scaleItem_true_world w gvk item (some 0)
      · split
        · cases he : (DeleteItem w true gvk item).1.2 with
          | none => simpa [he] using deleteItem_true_world w gvk item
          | some e => simpa [he] using deleteItem_true_world w gvk item
        · split
          · exact worldObs_refl w
          · exact worldObs_refl w

theorem cleanupLoop_true_world (cat : Catalog) (items : List CleanupItem) (w : World) :
    WorldObs w (cleanupLoop cat true w items).2 := by
  induction items generalizing w with
  | nil => exact worldObs_refl w
  | cons i rest ih =>
    exact worldObs_trans (processItem_true_world w cat i)
      (ih (processItem w cat true i).2)

theorem cleanupItems_true_world (w : World) (cat : Catalog) (items : List CleanupItem) :
    WorldObs w (CleanupItems w cat true items).2 := by
  unfold CleanupItems
  dsimp only
  split
  · exact cleanupLoop_true_world cat items w
  · exact cleanupLoop_true_world cat items w

/-! ### Counting the non-dry-run bulk delete -/

theorem getResource_isSome_of_mem (st : Store) (r : Resource) (k ns n : String)
    (hm : r ∈ st) (hk : keyIs k ns n r = true) :
    (getResource st k ns n).isSome = true := by
  unfold getResource
  rw [List.find?_isSome]
  exact ⟨r, hm, hk⟩

theorem filter_of_imp {α : Type} (l : List α) (p q : α → Bool)
    (h : ∀ x, p x = true → q x = true) : (l.filter q).filter p = l.filter p := by
  induction l with
  | nil => rfl
  | cons a l ih =>
    by_cases hp : p a = true
    · simp [List.filter_cons, h a hp, hp, ih]
    · rw [Bool.not_eq_true] at hp
      by_cases hq : q a = true
      · simp [List.filter_cons, hq, hp, ih]
      · rw [Bool.not_eq_true] at hq
        simp [List.filter_cons, hq, hp, ih]

theorem deleteLoop_store_sublist (k : String) (l : List Resource) (w : World) :
    (deleteLoop w k l).2.store.Sublist w.store := by
  induction l generalizing w with
  | nil => exact List.Sublist.refl w.store
  | cons item rest ih =>
    unfold deleteLoop clientDelete
    by_cases h : (getResource w.store k item.ns item.name).isSome = true
    · simp only [h, if_pos]
      exact ((ih _).trans (List.filter_sublist w.store))
    · rw [Bool.not_eq_true] at h
      simp only [h, Bool.false_eq_true, if_neg, not_false_iff]
      exact ih (trace w (.delete k item.ns item.name))

theorem deleteLoop_store_filter (k : String) (l : List Resource) (w : World)
    (p : Resource → Bool) (hp : ∀ r, p r = true → (r.kind == k) = false) :
    (deleteLoop w k l).2.store.filter p = w.store.filter p := by
  induction l generalizing w with
  | nil => rfl
  | cons item rest ih =>
    have hq : ∀ r, p r = true → (!(keyIs k item.ns item.name r)) = true := by
      intro r hr
      have := hp r hr
      simp [keyIs, this]
    unfold deleteLoop clientDelete
    by_cases h : (getResource w.store k item.ns item.name).isSome = true
    · simp only [h, if_pos]
      have hrm : (removeResource w.store k item.ns item.name).filter p
          = w.store.filter p :=
        filter_of_imp w.store p _ hq
      rw [ih _]
      exact hrm
    · rw [Bool.not_eq_true] at h
      simp only [h, Bool.false_eq_true, if_neg, not_false_iff]
      exact ih (trace w (.delete k item.ns item.name))

theorem deleteLoop_count (k : String) (l : List Resource) (w : World)
    (hkind : ∀ r ∈ l, r.kind = k)
    (hnodup : (l.map resKey).Nodup)
    (hpres : ∀ r ∈ l, (getResource w.store k r.ns r.name).isSome = true) :
    (deleteLoop w k l).1.1 = l.length ∧ (deleteLoop w k l).1.2 = [] := by
  induction l generalizing w with
  | nil => exact ⟨rfl, rfl⟩
  | cons item rest ih =>
    have hpi : (getResource w.store k item.ns item.name).isSome = true :=
      hpres item (List.mem_cons_self item rest)
    have hstep : clientDelete w k item.ns item.name
        = (true, { (trace w (.delete k item.ns item.name)) with
                    store := removeResource w.store k item.ns item.name }) := by
      unfold clientDelete
      rw [if_pos hpi]
    have hkey : ∀ r ∈ rest, (k, r.ns, r.name) ≠ (k, item.ns, item.name) := by
      intro r hr hcontra
      have hnotin := (List.nodup_cons.mp hnodup).1
      apply hnotin
      have h1 : resKey r = resKey item := by
        unfold resKey
        rw [hkind r (List.mem_cons_of_mem _ hr), hkind item (List.mem_cons_self _ _)]
        have h2 := congrArg Prod.snd hcontra
        simp only at h2
        rw [h2]
      rw [← h1]
      exact List.mem_map_of_mem resKey hr
    have hrest : ∀ r ∈ rest,
        (getResource (removeResource w.store k item.ns item.name) k r.ns r.name).isSome
          = true := by
      intro r hr
      rw [getResource_removeResource_ne _ _ _ _ _ _ _ (hkey r hr)]
      exact hpres r (List.mem_cons_of_mem _ hr)
    have := ih ({ (trace w (.delete k item.ns item.name)) with
                    store := removeResource w.store k item.ns item.name })
      (fun r hr => hkind r (List.mem_cons_of_mem _ hr))
      (List.nodup_cons.mp hnodup).2
      (by intro r hr; exact hrest r hr)
    unfold deleteLoop
    rw [hstep]
    simp only [if_pos]
    exact ⟨by rw [this.1]; simp, this.2⟩

theorem listResources_fst (w : World) (gvk : GVK) (ns : String) :
    (ListResources w gvk ns).1
      = w.store.filter (fun r => r.kind == gvk.kind && (ns == "" || r.ns == ns)) := rfl

theorem listResources_snd (w : World) (gvk : GVK) (ns : String) :
    (ListResources w gvk ns).2 = trace w (.list gvk.kind ns) := rfl

theorem dres_eq_zero (w : World) (dryRun : Bool) (gvk : GVK) (ns : String)
    (h : ((ListResources w gvk ns).1.length == 0) = true) :
    DeleteResources w dryRun gvk ns = ((0, none), (ListResources w gvk ns).2) := by
  unfold DeleteResources
  simp only [h, if_pos]

theorem dres_true_eq_len (w : World) (gvk : GVK) (ns : String)
    (h : ((ListResources w gvk ns).1.length == 0) = false) :
    DeleteResources w true gvk ns
      = (((ListResources w gvk ns).1.length, none), (ListResources w gvk ns).2) := by
  unfold DeleteResources
  simp only [h, Bool.false_eq_true, if_neg, not_false_iff, if_pos]

theorem dres_false_eq (w : World) (gvk : GVK) (ns : String)
    (h : ((ListResources w gvk ns).1.length == 0) = false) :
    DeleteResources w false gvk ns
      = (((deleteLoop (ListResources w gvk ns).2 gvk.kind (ListResources w gvk ns).1).1.1,
          joinErrs (deleteLoop (ListResources w gvk ns).2 gvk.kind
                      (ListResources w gvk ns).1).1.2),
         (deleteLoop (ListResources w gvk ns).2 gvk.kind (ListResources w gvk ns).1).2) := by
  unfold DeleteResources
  simp only [h, Bool.false_eq_true, if_neg, not_false_iff]

theorem dres_true_spec (w : World) (gvk : GVK) (ns : String) :
    (DeleteResources w true gvk ns).1.1 = (ListResources w gvk ns).1.length
    ∧ (DeleteResources w true gvk ns).1.2 = none := by
  by_cases hc : ((ListResources w gvk ns).1.length == 0) = true
  · rw [dres_eq_zero w true gvk ns hc]
    exact ⟨(Nat.beq_eq_true_eq _ _ ▸ hc : _ = 0).symm, rfl⟩
  · have hc' : ((ListResources w gvk ns).1.length == 0) = false := by
      simpa using hc
    rw [dres_true_eq_len w gvk ns hc']
    exact ⟨rfl, rfl⟩

theorem DeleteResources_false_spec (w : World) (gvk : GVK) (ns : String)
    (hwf : WF w.store) :
    (DeleteResources w false gvk ns).1.1 = (ListResources w gvk ns).1.length
    ∧ (DeleteResources w false gvk ns).1.2 = none
    ∧ (DeleteResources w false gvk ns).2.store.Sublist w.store
    ∧ ∀ p : Resource → Bool, (∀ r, p r = true → (r.kind == gvk.kind) = false) →
        (DeleteResources w false gvk ns).2.store.filter p = w.store.filter p := by
  by_cases hc : ((ListResources w gvk ns).1.length == 0) = true
  · rw [dres_eq_zero w false gvk ns hc]
    refine ⟨(Nat.beq_eq_true_eq _ _ ▸ hc : _ = 0).symm, rfl, ?_, ?_⟩
    · exact List.Sublist.refl w.store
    · intro p _
      rfl
  · have hc' : ((ListResources w gvk ns).1.length == 0) = false := by
      simpa using hc
    rw [dres_false_eq w gvk ns hc']
    have hkind : ∀ r ∈ (ListResources w gvk ns).1, r.kind = gvk.kind := by
      intro r hr
      rw [listResources_fst] at hr
      have := (List.mem_filter.mp hr).2
      have h1 := (Bool.and_eq_true _ _).mp this |>.1
      exact beq_iff_eq.mp h1
    have hnodup : ((ListResources w gvk ns).1.map resKey).Nodup := by
      apply List.Nodup.sublist _ hwf
      rw [listResources_fst]
      exact List.Sublist.map resKey (List.filter_sublist w.store)
    have hpres : ∀ r ∈ (ListResources w gvk ns).1,
        (getResource (ListResources w gvk ns).2.store gvk.kind r.ns r.name).isSome
          = true := by
      intro r hr
      have hmem : r ∈ w.store := by
        rw [listResources_fst] at hr
        exact (List.mem_filter.mp hr).1
      have hkey : keyIs gvk.kind r.ns r.name r = true := by
        simp [keyIs, hkind r hr]
      exact getResource_isSome_of_mem w.store r gvk.kind r.ns r.name hmem hkey
    have hcount := deleteLoop_count gvk.kind (ListResources w gvk ns).1
      (ListResources w gvk ns).2 hkind hnodup hpres
    refine ⟨hcount.1, ?_, ?_, ?_⟩
    · rw [hcount.2]
      rfl
    · exact deleteLoop_store_sublist gvk.kind (ListResources w gvk ns).1
        (ListResources w gvk ns).2
    · intro p hp
      exact deleteLoop_store_filter gvk.kind (ListResources w gvk ns).1
        (ListResources w gvk ns).2 p hp

/-- Dry-run and non-dry-run bulk deletes return the same count on a
well-formed store. -/
theorem dres_count_eq (w : World) (gvk : GVK) (ns : String) (hwf : WF w.store) :
    (DeleteResources w true gvk ns).1.1 = (DeleteResources w false gvk ns).1.1 := by
  rw [(dres_true_spec w gvk ns).1, (DeleteResources_false_spec w gvk ns hwf).1]

/-! ### The CRD/category bulk-delete counts -/

/-- Number of instances the bulk path would target for one resolved type. -/
def bulkLen (st : Store) (gvk : GVK) (ns : String) : Nat :=
  (st.filter (fun r => r.kind == gvk.kind && (ns == "" || r.ns == ns))).length

theorem crdLoop_true_counts (ns : String) (gs : List GVK) (w : World) :
    (crdDeleteLoop w true ns gs).1.1 = (gs.map (fun g => bulkLen w.store g ns)).sum
    ∧ (crdDeleteLoop w true ns gs).1.2 = [] := by
  induction gs generalizing w with
  | nil => exact ⟨rfl, rfl⟩
  | cons g rest ih =>
    have hspec := dres_true_spec w g ns
    have hw' : (DeleteResources w true g ns).2.store = w.store := by
      rw [dres_true_snd]
      rfl
    have htail := ih (DeleteResources w true g ns).2
    rw [hw'] at htail
    simp only [crdDeleteLoop, hspec.2]
    constructor
    · rw [hspec.1, htail.1]
      rfl
    · exact htail.2

theorem crdLoop_false_counts (ns : String) (gs : List GVK) (w : World)
    (hwf : WF w.store) (hnd : (gs.map GVK.kind).Nodup) :
    (crdDeleteLoop w false ns gs).1.1 = (gs.map (fun g => bulkLen w.store g ns)).sum
    ∧ (crdDeleteLoop w false ns gs).1.2 = []
    ∧ (crdDeleteLoop w false ns gs).2.store.Sublist w.store := by
  induction gs generalizing w with
  | nil => exact ⟨rfl, rfl, List.Sublist.refl w.store⟩
  | cons g rest ih =>
    have hspec := DeleteResources_false_spec w g ns hwf
    have hwf' : WF (DeleteResources w false g ns).2.store := by
      unfold WF
      exact List.Nodup.sublist (List.Sublist.map resKey hspec.2.2.1) hwf
    have hnd' : (rest.map GVK.kind).Nodup := (List.nodup_cons.mp hnd).2
    have htail := ih (DeleteResources w false g ns).2 hwf' hnd'
    have hsum : (rest.map (fun g' => bulkLen (DeleteResources w false g ns).2.store g' ns))
        = rest.map (fun g' => bulkLen w.store g' ns) := by
      apply List.map_congr_left
      intro g' hg'
      unfold bulkLen
      rw [hspec.2.2.2]
      intro r hr
      have hker : r.kind = g'.kind := beq_iff_eq.mp ((Bool.and_eq_true _ _).mp hr).1
      have hkk : g'.kind ≠ g.kind := by
        intro hcontra
        apply (List.nodup_cons.mp hnd).1
        rw [← hcontra]
        exact List.mem_map_of_mem GVK.kind hg'
      rw [hker]
      exact beq_eq_false_iff_ne.mpr hkk
    simp only [crdDeleteLoop, hspec.2.1]
    refine ⟨?_, htail.2.1, htail.2.2.trans hspec.2.2.1⟩
    rw [hspec.1, htail.1, hsum]
    rfl

/-- Dry-run and non-dry-run named deletes return the same count (the fetched
item is still present when the delete is issued). -/
theorem dnr_count_eq (w : World) (gvk : GVK) (ns name : String) :
    (DeleteNamedResource w true gvk ns name).1.1
      = (DeleteNamedResource w false gvk ns name).1.1 := by
  unfold DeleteNamedResource clientGet
  dsimp only
  cases hg : getResource w.store gvk.kind ns name with
  | none => rfl
  | some item =>
    have hk : keyIs gvk.kind ns name item = true := by
      unfold getResource at hg
      exact List.find?_some hg
    simp only [keyIs, Bool.and_eq_true, beq_iff_eq] at hk
    have hpres : (getResource (trace w (.get gvk.kind ns name)).store
        gvk.kind item.ns item.name).isSome = true := by
      rw [trace_store, hk.1.2, hk.2]
      rw [hg]
      rfl
    simp only [clientDelete, hpres, if_pos]
    simp

/-- Dry-run and non-dry-run `DeleteItem` return equal counts on a well-formed
store whose category resolution has pairwise-distinct kinds. -/
theorem deleteItem_count_eq (w : World) (gvk : GVK) (item : CleanupItem)
    (hwf : WF w.store)
    (hnd : ((LookupCrdsByCategory w item.category).map GVK.kind).Nodup) :
    (DeleteItem w true gvk item).1.1 = (DeleteItem w false gvk item).1.1 := by
  unfold DeleteItem
  dsimp only
  split
  · split
    · rfl
    · rw [(crdLoop_true_counts item.ns (LookupCrdsByCategory w item.category) w).1,
         (crdLoop_false_counts item.ns (LookupCrdsByCategory w item.category) w hwf hnd).1]
  · split
    · have ht := dres_count_eq w gvk item.ns hwf
      cases h1 : (DeleteResources w true gvk item.ns).1.2 <;>
        cases h2 : (DeleteResources w false gvk item.ns).1.2 <;>
          simpa using ht
    · have ht := dnr_count_eq w gvk item.ns item.name
      cases h1 : (DeleteNamedResource w true gvk item.ns item.name).1.2 <;>
        cases h2 : (DeleteNamedResource w false gvk item.ns item.name).1.2 <;>
          simpa using ht

/-! ### The scale paths -/

theorem scaleDeployment_noname (w : World) (dryRun : Bool) (ns name : String)
    (reps : Option Int) (hn : (name == "") = true) :
    ScaleDeployment w dryRun ns name reps = ((0, none), w) := by
  simp [ScaleDeployment, hn]

theorem scaleStatefulSet_noname (w : World) (dryRun : Bool) (ns name : String)
    (reps : Option Int) (hn : (name == "") = true) :
    ScaleStatefulSet w dryRun ns name reps = ((0, none), w) := by
  simp [ScaleStatefulSet, hn]

theorem scaleDeployment_true_named (w : World) (ns name : String)
    (reps : Option Int) (hn : (name == "") = false) :
    ScaleDeployment w true ns name reps = ((1, none), w) := by
  simp [ScaleDeployment, hn]

theorem scaleStatefulSet_true_named (w : World) (ns name : String)
    (reps : Option Int) (hn : (name == "") = false) :
    ScaleStatefulSet w true ns name reps = ((1, none), w) := by
  simp [ScaleStatefulSet, hn]

theorem scaleDeployment_false_present (w : World) (ns name : String)
    (reps : Option Int) (hn : (name == "") = false) (r : Resource)
    (hget : getResource w.store DeploymentKind ns name = some r) :
    (ScaleDeployment w false ns name reps).1 = (1, none)
    ∧ (ScaleDeployment w false ns name reps).2.store
        = setReplicas w.store DeploymentKind ns name reps := by
  have hpres : (getResource w.store DeploymentKind ns name).isSome = true := by
    rw [hget]
    rfl
  simp [ScaleDeployment, hn, clientGet, clientUpdate, trace_store, hget, hpres]

theorem scaleStatefulSet_false_present (w : World) (ns name : String)
    (reps : Option Int) (hn : (name == "") = false) (r : Resource)
    (hget : getResource w.store StatefulSetKind ns name = some r) :
    (ScaleStatefulSet w false ns name reps).1 = (1, none)
    ∧ (ScaleStatefulSet w false ns name reps).2.store
        = setReplicas w.store StatefulSetKind ns name reps := by
  have hpres : (getResource w.store StatefulSetKind ns name).isSome = true := by
    rw [hget]
    rfl
  simp [ScaleStatefulSet, hn, clientGet, clientUpdate, trace_store, hget, hpres]

theorem scaleDeployment_false_absent (w : World) (ns name : String)
    (reps : Option Int) (hn : (name == "") = false)
    (hget : getResource w.store DeploymentKind ns name = none) :
    (ScaleDeployment w false ns name reps).1.1 = 0
    ∧ (ScaleDeployment w false ns name reps).1.2.isSome = true
    ∧ (ScaleDeployment w false ns name reps).2.store = w.store := by
  simp [ScaleDeployment, hn, clientGet, trace_store, hget]

theorem scaleStatefulSet_false_absent (w : World) (ns name : String)
    (reps : Option Int) (hn : (name == "") = false)
    (hget : getResource w.store StatefulSetKind ns name = none) :
    (ScaleStatefulSet w false ns name reps).1.1 = 0
    ∧ (ScaleStatefulSet w false ns name reps).1.2.isSome = true
    ∧ (ScaleStatefulSet w false ns name reps).2.store = w.store := by
  simp [ScaleStatefulSet, hn, clientGet, trace_store, hget]

theorem scaleKind_dispatch_dep (w : World) (dryRun : Bool) (gvk : GVK)
    (ns name : String) (reps : Option Int) (h : gvk.kind = DeploymentKind) :
    ScaleKind w dryRun gvk ns name reps = ScaleDeployment w dryRun ns name reps := by
  have hd : (gvk.kind == DeploymentKind) = true := by
    rw [h]
    exact beq_self_eq_true _
  simp [ScaleKind, hd]

theorem scaleKind_dispatch_sts (w : World) (dryRun : Bool) (gvk : GVK)
    (ns name : String) (reps : Option Int) (h : gvk.kind = StatefulSetKind) :
    ScaleKind w dryRun gvk ns name reps = ScaleStatefulSet w dryRun ns name reps := by
  have hd : (gvk.kind == DeploymentKind) = false := by
    rw [h]
    decide
  have hs : (gvk.kind == StatefulSetKind) = true := by
    rw [h]
    exact beq_self_eq_true _
  simp [ScaleKind, hd, hs]

theorem scaleKind_true_named (w : World) (gvk : GVK) (ns name : String)
    (reps : Option Int) (hk : gvk.kind = DeploymentKind ∨ gvk.kind = StatefulSetKind)
    (hn : (name == "") = false) :
    ScaleKind w true gvk ns name reps = ((1, none), w) := by
  rcases hk with h | h
  · rw [scaleKind_dispatch_dep w true gvk ns name reps h]
    exact scaleDeployment_true_named w ns name reps hn
  · rw [scaleKind_dispatch_sts w true gvk ns name reps h]
    exact scaleStatefulSet_true_named w ns name reps hn

theorem scaleKind_noname (w : World) (gvk : GVK) (dryRun : Bool) (ns name : String)
    (reps : Option Int) (hk : gvk.kind = DeploymentKind ∨ gvk.kind = StatefulSetKind)
    (hn : (name == "") = true) :
    ScaleKind w dryRun gvk ns name reps = ((0, none), w) := by
  rcases hk with h | h
  · rw [scaleKind_dispatch_dep w dryRun gvk ns name reps h]
    exact scaleDeployment_noname w dryRun ns name reps hn
  · rw [scaleKind_dispatch_sts w dryRun gvk ns name reps h]
    exact scaleStatefulSet_noname w dryRun ns name reps hn

theorem scaleKind_false_present (w : World) (gvk : GVK) (ns name : String)
    (reps : Option Int) (hk : gvk.kind = DeploymentKind ∨ gvk.kind = StatefulSetKind)
    (hn : (name == "") = false) (r : Resource)
    (hget : getResource w.store gvk.kind ns name = some r) :
    (ScaleKind w false gvk ns name reps).1 = (1, none)
    ∧ (ScaleKind w false gvk ns name reps).2.store
        = setReplicas w.store gvk.kind ns name reps := by
  rcases hk with h | h
  · rw [scaleKind_dispatch_dep w false gvk ns name reps h, h]
    rw [h] at hget
    exact scaleDeployment_false_present w ns name reps hn r hget
  · rw [scaleKind_dispatch_sts w false gvk ns name reps h, h]
    rw [h] at hget
    exact scaleStatefulSet_false_present w ns name reps hn r hget

theorem scaleKind_false_absent (w : World) (gvk : GVK) (ns name : String)
    (reps : Option Int) (hk : gvk.kind = DeploymentKind ∨ gvk.kind = StatefulSetKind)
    (hn : (name == "") = false)
    (hget : getResource w.store gvk.kind ns name = none) :
    (ScaleKind w false gvk ns name reps).1.1 = 0
    ∧ (ScaleKind w false gvk ns name reps).1.2.isSome = true
    ∧ (ScaleKind w false gvk ns name reps).2.store = w.store := by
  rcases hk with h | h
  · rw [scaleKind_dispatch_dep w false gvk ns name reps h]
    rw [h] at hget
    exact scaleDeployment_false_absent w ns name reps hn hget
  · rw [scaleKind_dispatch_sts w false gvk ns name reps h]
    rw [h] at hget
    exact scaleStatefulSet_false_absent w ns name reps hn hget

theorem scaleLoop_true_counts (gvk : GVK) (reps : Option Int)
    (hk : gvk.kind = DeploymentKind ∨ gvk.kind = StatefulSetKind) :
    ∀ (l : List Resource) (w : World),
    (scaleLoop w true gvk reps l).1.1 = (l.filter (fun x => !(x.name == ""))).length
    ∧ (scaleLoop w true gvk reps l).1.2 = []
  | [], _ => ⟨rfl, rfl⟩
  | i :: rest, w => by
    have ih := scaleLoop_true_counts gvk reps hk rest w
    cases hn : (i.name == "") with
    | true =>
      have hs := scaleKind_noname w gvk true i.ns i.name reps hk hn
      simp only [scaleLoop, hs]
      refine ⟨?_, ih.2⟩
      rw [ih.1]
      simp [List.filter_cons, hn]
    | false =>
      have hs := scaleKind_true_named w gvk i.ns i.name reps hk hn
      simp only [scaleLoop, hs]
      refine ⟨?_, ih.2⟩
      rw [ih.1]
      simp [List.filter_cons, hn, Nat.add_comm]

theorem scaleLoop_false_counts (gvk : GVK) (reps : Option Int)
    (hk : gvk.kind = DeploymentKind ∨ gvk.kind = StatefulSetKind) :
    ∀ (l : List Resource) (w : World),
    (∀ x ∈ l, (x.name == "") = false →
      (getResource w.store gvk.kind x.ns x.name).isSome = true) →
    (scaleLoop w false gvk reps l).1.1 = (l.filter (fun x => !(x.name == ""))).length
    ∧ (scaleLoop w false gvk reps l).1.2 = []
    ∧ ∀ k n m, (getResource (scaleLoop w false gvk reps l).2.store k n m).isSome
        = (getResource w.store k n m).isSome
  | [], w, _ => ⟨rfl, rfl, fun _ _ _ => rfl⟩
  | i :: rest, w, hpres => by
    cases hn : (i.name == "") with
    | true =>
      have hs := scaleKind_noname w gvk false i.ns i.name reps hk hn
      have ih := scaleLoop_false_counts gvk reps hk rest w
        (fun x hx hnx => hpres x (List.mem_cons_of_mem _ hx) hnx)
      simp only [scaleLoop, hs]
      refine ⟨?_, ih.2.1, ih.2.2⟩
      rw [ih.1]
      simp [List.filter_cons, hn]
    | false =>
      have hpi := hpres i (List.mem_cons_self i rest) hn
      cases hget : getResource w.store gvk.kind i.ns i.name with
      | none =>
        rw [hget] at hpi
        exact absurd hpi (by simp)
      | some r =>
        have hs := scaleKind_false_present w gvk i.ns i.name reps hk hn r hget
        have hkeep : ∀ k n m,
            (getResource (ScaleKind w false gvk i.ns i.name reps).2.store k n m).isSome
              = (getResource w.store k n m).isSome := by
          intro k n m
          rw [hs.2]
          exact getResource_setReplicas_isSome w.store k n m gvk.kind i.ns i.name reps
        have ih := scaleLoop_false_counts gvk reps hk rest
          (ScaleKind w false gvk i.ns i.name reps).2
          (fun x hx hnx => by
            rw [hkeep gvk.kind x.ns x.name]
            exact hpres x (List.mem_cons_of_mem _ hx) hnx)
        have h1 : (ScaleKind w false gvk i.ns i.name reps).1.2 = none := by
          rw [hs.1]
        have h2 : (ScaleKind w false gvk i.ns i.name reps).1.1 = 1 := by
          rw [hs.1]
        simp only [scaleLoop, h1, h2]
        refine ⟨?_, ih.2.1, ?_⟩
        · rw [ih.1]
          simp [List.filter_cons, hn, Nat.add_comm]
        · intro k n m
          rw [ih.2.2 k n m, hkeep k n m]

/-- Dry-run and non-dry-run `ScaleItem` return equal counts, provided a named
target exists; bulk targets are taken from the store itself. -/
theorem scaleItem_count_eq (w : World) (gvk : GVK) (item : CleanupItem)
    (reps : Option Int)
    (hname : (item.name != "") = true →
      (getResource w.store gvk.kind item.ns item.name).isSome = true) :
    (ScaleItem w true gvk item reps).1.1 = (ScaleItem w false gvk item reps).1.1 := by
  unfold ScaleItem
  dsimp only
  split
  · rfl
  · rename_i hguard
    have hk : gvk.kind = DeploymentKind ∨ gvk.kind = StatefulSetKind := by
      cases h1 : (gvk.kind == DeploymentKind) with
      | true => exact Or.inl (beq_iff_eq.mp h1)
      | false =>
        cases h2 : (gvk.kind == StatefulSetKind) with
        | true => exact Or.inr (beq_iff_eq.mp h2)
        | false => exact absurd (by simp [bne, h1, h2]) hguard
    split
    · rename_i hnamed
      have hn : (item.name == "") = false := by
        simpa [bne] using hnamed
      have hst := scaleKind_true_named w gvk item.ns item.name reps hk hn
      cases hget : getResource w.store gvk.kind item.ns item.name with
      | none =>
        have := hname hnamed
        rw [hget] at this
        exact absurd this (by simp)
      | some r =>
        have hsf := scaleKind_false_present w gvk item.ns item.name reps hk hn r hget
        rw [hst]
        have h1 : (ScaleKind w false gvk item.ns item.name reps).1.2 = none := by
          rw [hsf.1]
        have h2 : (ScaleKind w false gvk item.ns item.name reps).1.1 = 1 := by
          rw [hsf.1]
        simp only [h1, h2]
    · have hpresl : ∀ x ∈ (ListResources w gvk item.ns).1, (x.name == "") = false →
          (getResource (ListResources w gvk item.ns).2.store gvk.kind x.ns x.name).isSome
            = true := by
        intro x hx _
        rw [listResources_fst] at hx
        have hmem := (List.mem_filter.mp hx).1
        have hkx : x.kind = gvk.kind :=
          beq_iff_eq.mp ((Bool.and_eq_true _ _).mp (List.mem_filter.mp hx).2).1
        rw [listResources_snd, trace_store]
        exact getResource_isSome_of_mem w.store x gvk.kind x.ns x.name hmem
          (by simp [keyIs, hkx])
      split
      · rfl
      · rw [(scaleLoop_true_counts gvk reps hk (ListResources w gvk item.ns).1
              (ListResources w gvk item.ns).2).1,
           (scaleLoop_false_counts gvk reps hk (ListResources w gvk item.ns).1
              (ListResources w gvk item.ns).2 hpresl).1]

/-! ### Orchestrator loop structure -/

theorem perItemResults_length (cat : Catalog) (dryRun : Bool) :
    ∀ (items : List CleanupItem) (w : World),
    (perItemResults cat dryRun w items).length = items.length
  | [], _ => rfl
  | _ :: rest, w => by
    simp only [perItemResults, List.length_cons]
    rw [perItemResults_length cat dryRun rest]

theorem cleanupLoop_count_sum (cat : Catalog) (dryRun : Bool) :
    ∀ (items : List CleanupItem) (w : World),
    (cleanupLoop cat dryRun w items).1.1
      = ((perItemResults cat dryRun w items).map (·.1)).sum
  | [], _ => rfl
  | i :: rest, w => by
    simp only [cleanupLoop, perItemResults, List.map_cons, List.sum_cons]
    rw [cleanupLoop_count_sum cat dryRun rest]

theorem cleanupLoop_errs_nil_iff (cat : Catalog) (dryRun : Bool) :
    ∀ (items : List CleanupItem) (w : World),
    ((cleanupLoop cat dryRun w items).1.2 = []
      ↔ ∀ r ∈ perItemResults cat dryRun w items, r.2 = [])
  | [], _ => by simp [cleanupLoop, perItemResults]
  | i :: rest, w => by
    simp only [cleanupLoop, perItemResults, List.mem_cons, List.append_eq_nil]
    constructor
    · rintro ⟨h1, h2⟩ r hr
      rcases hr with hr | hr
      · rw [hr]
        exact h1
      · exact (cleanupLoop_errs_nil_iff cat dryRun rest
          (processItem w cat dryRun i).2).mp h2 r hr
    · intro h
      refine ⟨h _ (Or.inl rfl), ?_⟩
      exact (cleanupLoop_errs_nil_iff cat dryRun rest
        (processItem w cat dryRun i).2).mpr (fun r hr => h r (Or.inr hr))

theorem cleanupLoop_append (cat : Catalog) (dryRun : Bool) :
    ∀ (xs ys : List CleanupItem) (w : World),
    cleanupLoop cat dryRun w (xs ++ ys)
      = (((cleanupLoop cat dryRun w xs).1.1
            + (cleanupLoop cat dryRun (cleanupLoop cat dryRun w xs).2 ys).1.1,
          (cleanupLoop cat dryRun w xs).1.2
            ++ (cleanupLoop cat dryRun (cleanupLoop cat dryRun w xs).2 ys).1.2),
         (cleanupLoop cat dryRun (cleanupLoop cat dryRun w xs).2 ys).2)
  | [], ys, w => by simp [cleanupLoop]
  | x :: xs, ys, w => by
    have ih := cleanupLoop_append cat dryRun xs ys (processItem w cat dryRun x).2
    simp only [List.cons_append, cleanupLoop]
    have hc : xs.append ys = xs ++ ys := rfl
    rw [hc, ih]
    simp [Nat.add_assoc, List.append_assoc]

theorem perItemResults_append (cat : Catalog) (dryRun : Bool) :
    ∀ (xs ys : List CleanupItem) (w : World),
    perItemResults cat dryRun w (xs ++ ys)
      = perItemResults cat dryRun w xs
          ++ perItemResults cat dryRun (cleanupLoop cat dryRun w xs).2 ys
  | [], ys, w => by simp [perItemResults, cleanupLoop]
  | x :: xs, ys, w => by
    have ih := perItemResults_append cat dryRun xs ys (processItem w cat dryRun x).2
    simp only [List.cons_append, perItemResults, cleanupLoop]
    have hc : xs.append ys = xs ++ ys := rfl
    rw [hc, ih]

/-! ### Condition merge (meta.SetStatusCondition) -/

/-- The condition types present, in order. -/
def typesOf (l : List Condition) : List String := l.map (·.type_)

/-- The last write among `writes` whose Type is `t`. -/
def lastWrite (writes : List Condition) (t : String) : Option Condition :=
  (writes.filter (fun c => c.type_ == t)).getLast?

theorem typesOf_cons (x : Condition) (xs : List Condition) :
    typesOf (x :: xs) = x.type_ :: typesOf xs := rfl

theorem ssc_types_mem (c : Condition) (t : String) :
    ∀ l : List Condition,
    (t ∈ typesOf (setStatusCondition l c) ↔ t ∈ typesOf l ∨ t = c.type_)
  | [] => by simp [setStatusCondition, typesOf]
  | x :: xs => by
    by_cases hb : (x.type_ == c.type_) = true
    · have hx : x.type_ = c.type_ := beq_iff_eq.mp hb
      simp only [setStatusCondition, hb, if_pos]
      rw [typesOf_cons, typesOf_cons]
      show t ∈ x.type_ :: typesOf xs ↔ _
      simp only [List.mem_cons]
      rw [hx]
      tauto
    · rw [Bool.not_eq_true] at hb
      simp only [setStatusCondition, hb, Bool.false_eq_true, if_neg, not_false_iff]
      rw [typesOf_cons, typesOf_cons]
      simp only [List.mem_cons]
      rw [ssc_types_mem c t xs]
      tauto

theorem ssc_nodup (c : Condition) :
    ∀ l : List Condition, (typesOf l).Nodup → (typesOf (setStatusCondition l c)).Nodup
  | [], _ => by simp [setStatusCondition, typesOf]
  | x :: xs, hnd => by
    obtain ⟨hx, hxs⟩ :=
      List.nodup_cons.mp (show (x.type_ :: typesOf xs).Nodup from hnd)
    by_cases hb : (x.type_ == c.type_) = true
    · simp only [setStatusCondition, hb, if_pos]
      exact List.nodup_cons.mpr ⟨hx, hxs⟩
    · rw [Bool.not_eq_true] at hb
      simp only [setStatusCondition, hb, Bool.false_eq_true, if_neg, not_false_iff]
      rw [typesOf_cons, List.nodup_cons]
      constructor
      · intro hmem
        rcases (ssc_types_mem c x.type_ xs).mp hmem with h | h
        · exact hx h
        · rw [beq_eq_false_iff_ne] at hb
          exact hb h
      · exact ssc_nodup c xs hxs

theorem findStatusCondition_ssc_self (c : Condition) :
    ∀ l : List Condition,
    findStatusCondition (setStatusCondition l c) c.type_
      = some ⟨c.type_, c.status, c.reason, c.message⟩
  | [] => by
    simp [setStatusCondition, findStatusCondition, List.find?_cons]
  | x :: xs => by
    by_cases hb : (x.type_ == c.type_) = true
    · have hx : x.type_ = c.type_ := beq_iff_eq.mp hb
      simp only [setStatusCondition, hb, if_pos, findStatusCondition, List.find?_cons]
      simp [hx]
    · rw [Bool.not_eq_true] at hb
      simp only [setStatusCondition, hb, Bool.false_eq_true, if_neg, not_false_iff,
        findStatusCondition, List.find?_cons]
      exact findStatusCondition_ssc_self c xs

theorem findStatusCondition_ssc_other (c : Condition) (t : String)
    (ht : (t == c.type_) = false) :
    ∀ l : List Condition,
    findStatusCondition (setStatusCondition l c) t = findStatusCondition l t
  | [] => by
    have h0 : (c.type_ == t) = false := by
      rw [beq_eq_false_iff_ne] at ht ⊢
      exact fun h => ht h.symm
    simp [setStatusCondition, findStatusCondition, List.find?_cons, h0]
  | x :: xs => by
    by_cases hb : (x.type_ == c.type_) = true
    · have hx : x.type_ = c.type_ := beq_iff_eq.mp hb
      have hxt : (x.type_ == t) = false := by
        rw [beq_eq_false_iff_ne] at ht ⊢
        intro h
        exact ht (h.symm.trans hx)
      simp only [setStatusCondition, hb, if_pos, findStatusCondition, List.find?_cons]
      simp only [hxt]
    · rw [Bool.not_eq_true] at hb
      simp only [setStatusCondition, hb, Bool.false_eq_true, if_neg, not_false_iff,
        findStatusCondition, List.find?_cons]
      cases hxt : (x.type_ == t) with
      | true => rfl
      | false => exact findStatusCondition_ssc_other c t ht xs

theorem lastWrite_nil (t : String) : lastWrite [] t = none := rfl

theorem foldl_ssc_spec (t : String) :
    ∀ (writes init : List Condition), (typesOf init).Nodup →
    (typesOf (writes.foldl setStatusCondition init)).Nodup
    ∧ (∀ c, lastWrite writes t = some c →
        findStatusCondition (writes.foldl setStatusCondition init) t = some c)
    ∧ (lastWrite writes t = none →
        findStatusCondition (writes.foldl setStatusCondition init) t
          = findStatusCondition init t)
  | [], init, hnd => by
    refine ⟨hnd, ?_, fun _ => rfl⟩
    intro c hc
    rw [lastWrite_nil] at hc
    cases hc
  | cw :: rest, init, hnd => by
    have hnd' := ssc_nodup cw init hnd
    have ih := foldl_ssc_spec t rest (setStatusCondition init cw) hnd'
    rw [List.foldl_cons]
    refine ⟨ih.1, ?_, ?_⟩
    · intro c hc
      unfold lastWrite at hc
      rw [List.filter_cons] at hc
      by_cases hbt : (cw.type_ == t) = true
      · rw [if_pos hbt] at hc
        cases hrest : rest.filter (fun c => c.type_ == t) with
        | nil =>
          rw [hrest] at hc
          have hcw : c = cw := by
            simpa using hc.symm
          have hnone : lastWrite rest t = none := by
            unfold lastWrite
            rw [hrest]
            rfl
          rw [ih.2.2 hnone]
          have ht' : t = cw.type_ := (beq_iff_eq.mp hbt).symm
          rw [ht', hcw]
          exact findStatusCondition_ssc_self cw init
        | cons d ds =>
          rw [hrest, List.getLast?_cons_cons] at hc
          exact ih.2.1 c (by unfold lastWrite; rw [hrest]; exact hc)
      · rw [Bool.not_eq_true] at hbt
        rw [if_neg (by simp [hbt])] at hc
        exact ih.2.1 c hc
    · intro hc
      unfold lastWrite at hc
      rw [List.filter_cons] at hc
      by_cases hbt : (cw.type_ == t) = true
      · rw [if_pos hbt] at hc
        exfalso
        cases hrest : rest.filter (fun c => c.type_ == t) with
        | nil => rw [hrest] at hc; simp at hc
        | cons d ds => rw [hrest, List.getLast?_cons_cons] at hc; simp at hc
      · rw [Bool.not_eq_true] at hbt
        rw [if_neg (by simp [hbt])] at hc
        have := ih.2.2 (by unfold lastWrite; exact hc)
        rw [this]
        apply findStatusCondition_ssc_other
        rw [beq_eq_false_iff_ne] at hbt ⊢
        exact fun h => hbt h.symm

theorem find_nodup_filter_len (t : String) :
    ∀ (l : List Condition), (typesOf l).Nodup →
    ∀ c, findStatusCondition l t = some c →
    (l.filter (fun x => x.type_ == t)).length = 1
  | [], _, c, hf => by cases hf
  | x :: xs, hnd, c, hf => by
    obtain ⟨hx, hxs⟩ :=
      List.nodup_cons.mp (show (x.type_ :: typesOf xs).Nodup from hnd)
    unfold findStatusCondition at hf
    rw [List.find?_cons] at hf
    rw [List.filter_cons]
    cases hbt : (x.type_ == t) with
    | true =>
      rw [if_pos rfl]
      have hfx : xs.filter (fun x => x.type_ == t) = [] := by
        rw [List.filter_eq_nil_iff]
        intro a ha hat
        apply hx
        have : a.type_ = x.type_ := (beq_iff_eq.mp hat).trans (beq_iff_eq.mp hbt).symm
        rw [← this]
        exact List.mem_map_of_mem _ ha
      rw [hfx]
      rfl
    | false =>
      rw [if_neg Bool.false_ne_true]
      rw [hbt] at hf
      exact find_nodup_filter_len t xs hxs c hf

/-! ### Substring facts and result-shape helpers -/

theorem listLE_self_append : ∀ (p t : List Char), listLE p (p ++ t) = true
  | [], _ => rfl
  | a :: as, t => by
    simp only [List.cons_append, listLE, beq_self_eq_true, Bool.true_and]
    exact listLE_self_append as t

theorem subChars_of_head (p : List Char) :
    ∀ s : List Char, listLE p s = true → subChars p s = true
  | [], h => by simpa [subChars] using h
  | c :: rest, h => by
    simp only [subChars, h, Bool.true_or]

theorem strContains_of_data (s sub : String) (t : List Char)
    (h : s.data = sub.data ++ t) : strContains s sub = true := by
  unfold strContains
  rw [h]
  exact subChars_of_head sub.data (sub.data ++ t) (listLE_self_append sub.data t)

theorem joinErrs_eq_none_iff (errs : List String) :
    joinErrs errs = none ↔ errs = [] := by
  unfold joinErrs
  by_cases h : errs.isEmpty = true
  · rw [if_pos h]
    simp [List.isEmpty_iff.mp h]
  · rw [if_neg h]
    rw [Bool.not_eq_true, List.isEmpty_eq_false_iff_exists_mem] at h
    obtain ⟨x, hx⟩ := h
    constructor
    · intro hc
      cases hc
    · intro hc
      rw [hc] at hx
      cases hx

theorem cleanupItems_fst_count (w : World) (cat : Catalog) (dryRun : Bool)
    (items : List CleanupItem) :
    (CleanupItems w cat dryRun items).1.1 = (cleanupLoop cat dryRun w items).1.1 := by
  unfold CleanupItems
  dsimp only
  split <;> rfl

theorem cleanupItems_err_none_iff (w : World) (cat : Catalog) (dryRun : Bool)
    (items : List CleanupItem) :
    ((CleanupItems w cat dryRun items).1.2 = none
      ↔ (cleanupLoop cat dryRun w items).1.2 = []) := by
  unfold CleanupItems
  dsimp only
  split
  · rename_i hpos
    constructor
    · intro hc
      cases hc
    · intro hc
      rw [hc] at hpos
      simp at hpos
  · rename_i hneg
    have : (cleanupLoop cat dryRun w items).1.2.length = 0 := by omega
    simp [List.length_eq_zero.mp this]

theorem cleanupItems_err_msg (w : World) (cat : Catalog) (dryRun : Bool)
    (items : List CleanupItem)
    (h : (cleanupLoop cat dryRun w items).1.2.length > 0) :
    (CleanupItems w cat dryRun items).1.2
      = some (toString (cleanupLoop cat dryRun w items).1.2.length
          ++ " errors occurred during processing: "
          ++ String.intercalate "\n" (cleanupLoop cat dryRun w items).1.2) := by
  unfold CleanupItems
  dsimp only
  rw [if_pos h]

/-- Correspondence between `DeleteItem`'s CRD loop and the per-type observer:
the count is the sum over the error-free types, errors join. -/
theorem crdLoop_perType (dryRun : Bool) (ns : String) :
    ∀ (gs : List GVK) (w : World),
    (crdDeleteLoop w dryRun ns gs).1.1
      = ((perTypeResults dryRun ns w gs).filterMap
          (fun r => if r.2 = none then some r.1 else none)).sum
    ∧ ((crdDeleteLoop w dryRun ns gs).1.2 = []
        ↔ ∀ r ∈ perTypeResults dryRun ns w gs, r.2 = none)
  | [], _ => by simp [crdDeleteLoop, perTypeResults]
  | g :: rest, w => by
    have ih := crdLoop_perType dryRun ns rest (DeleteResources w dryRun g ns).2
    cases he : (DeleteResources w dryRun g ns).1.2 with
    | none =>
      simp only [crdDeleteLoop, perTypeResults, he, List.filterMap_cons, if_pos,
        List.mem_cons, List.sum_cons]
      constructor
      · rw [ih.1]
      · constructor
        · intro hc r hr
          rcases hr with hr | hr
          · rw [hr]
            exact he
          · exact ih.2.mp hc r hr
        · intro hc
          exact ih.2.mpr (fun r hr => hc r (Or.inr hr))
    | some e =>
      simp only [crdDeleteLoop, perTypeResults, he, List.filterMap_cons]
      constructor
      · rw [ih.1]
        simp
      · constructor
        · intro hc
          cases hc
        · intro hc
          have := hc ((DeleteResources w dryRun g ns).1.1, some e) (by
            rw [← he]
            exact List.mem_cons_self _ _)
          cases this

/-! ### Concrete fixtures used by witnesses and counterexamples -/

def gvkDep : GVK := ⟨"apps", "v1", "Deployment"⟩

def gvkSts : GVK := ⟨"apps", "v1", "StatefulSet"⟩

def gvkCrd : GVK := ⟨"apiextensions.k8s.io", "v1", "CustomResourceDefinition"⟩

def cat0 : Catalog :=
  [("Deployment", gvkDep), ("StatefulSet", gvkSts), ("CustomResourceDefinition", gvkCrd)]

/-- A Deployment `ns/d` currently at 3 replicas. -/
def depD3 : Resource := ⟨"Deployment", "ns", "d", some 3⟩

def w3 : World := ⟨[depD3], [], []⟩

def wEmptyStore : World := ⟨[], [], []⟩

def itemScaleD : CleanupItem := ⟨"Deployment", "ns", "d", "", "scaleToZero"⟩

def crdFoo : Crd := ⟨"example.com", "v1", "Widget", ["foo"]⟩

def wCrd : World := ⟨[⟨"Widget", "ns", "x", none⟩], [crdFoo], []⟩

def itemCrdFoo : CleanupItem := ⟨"CustomResourceDefinition", "", "", "foo", "delete"⟩

/-! ### Claims -/

/-- C1 counterexample: on an identical input and store state (a store without
Deployment ns/d), the dry-run scale of the named target counts 1 while the
non-dry-run counts 0 — both for the bare operation and for the orchestrator
run — so dry-run and non-dry-run counts are NOT always equal. -/
theorem c1_counterexample :
    (ScaleDeployment wEmptyStore true "ns" "d" (some 0)).1.1 = 1
    ∧ (ScaleDeployment wEmptyStore false "ns" "d" (some 0)).1.1 = 0
    ∧ (CleanupItems wEmptyStore cat0 true [itemScaleD]).1.1 = 1
    ∧ (CleanupItems wEmptyStore cat0 false [itemScaleD]).1.1 = 0 :=
  ⟨rfl, rfl, rfl, rfl⟩

/-- C1 (amended): dry-run issues no Update and no Delete call and leaves the
store unchanged, for every operation including the orchestrator; and the
dry-run count equals the non-dry-run count for DeleteNamed always, for
DeleteMany on a well-formed store, for ScaleItem whenever its named target
exists (bulk targets come from the store), and for DeleteItem on a
well-formed store whose category resolution yields pairwise-distinct kinds.
(The named-scale-of-an-absent-target case, where dry-run skips the fetch and
returns 1 while non-dry-run returns 0, is the sole exception, and it also
breaks Process-level count equality.) -/
theorem c1_dry_run_amended :
    (∀ (w : World) (cat : Catalog) (items : List CleanupItem),
      (CleanupItems w cat true items).2.store = w.store
      ∧ mutCalls (CleanupItems w cat true items).2 = mutCalls w)
    ∧ (∀ (w : World) (gvk : GVK) (item : CleanupItem) (reps : Option Int),
      (ScaleItem w true gvk item reps).2.store = w.store
      ∧ mutCalls (ScaleItem w true gvk item reps).2 = mutCalls w)
    ∧ (∀ (w : World) (gvk : GVK) (item : CleanupItem),
      (DeleteItem w true gvk item).2.store = w.store
      ∧ mutCalls (DeleteItem w true gvk item).2 = mutCalls w)
    ∧ (∀ (w : World) (gvk : GVK) (ns name : String),
      (DeleteNamedResource w true gvk ns name).2.store = w.store
      ∧ mutCalls (DeleteNamedResource w true gvk ns name).2 = mutCalls w)
    ∧ (∀ (w : World) (gvk : GVK) (ns : String),
      (DeleteResources w true gvk ns).2.store = w.store
      ∧ mutCalls (DeleteResources w true gvk ns).2 = mutCalls w)
    ∧ (∀ (w : World) (gvk : GVK) (ns name : String),
      (DeleteNamedResource w true gvk ns name).1.1
        = (DeleteNamedResource w false gvk ns name).1.1)
    ∧ (∀ (w : World) (gvk : GVK) (ns : String), WF w.store →
      (DeleteResources w true gvk ns).1.1 = (DeleteResources w false gvk ns).1.1)
    ∧ (∀ (w : World) (gvk : GVK) (item : CleanupItem) (reps : Option Int),
      ((item.name != "") = true →
        (getResource w.store gvk.kind item.ns item.name).isSome = true) →
      (ScaleItem w true gvk item reps).1.1 = (ScaleItem w false gvk item reps).1.1)
    ∧ (∀ (w : World) (gvk : GVK) (item : CleanupItem), WF w.store →
      ((LookupCrdsByCategory w item.category).map GVK.kind).Nodup →
      (DeleteItem w true gvk item).1.1 = (DeleteItem w false gvk item).1.1) := by
  refine ⟨?_, ?_, ?_, ?_, ?_, ?_, ?_, ?_, ?_⟩
  · intro w cat items
    have h := cleanupItems_true_world w cat items
    exact ⟨h.1, h.2.2⟩
  · intro w gvk item reps
    have h := scaleItem_true_world w gvk item reps
    exact ⟨h.1, h.2.2⟩
  · intro w gvk item
    have h := deleteItem_true_world w gvk item
    exact ⟨h.1, h.2.2⟩
  · intro w gvk ns name
    have h := dnr_true_world w gvk ns name
    exact ⟨h.1, h.2.2⟩
  · intro w gvk ns
    have h := dres_true_world w gvk ns
    exact ⟨h.1, h.2.2⟩
  · exact dnr_count_eq
  · exact dres_count_eq
  · exact scaleItem_count_eq
  · exact deleteItem_count_eq

/-- C1 witness: the amended theorem applied at a concrete store holding one
Deployment at 3 replicas. -/
theorem c1_witness :
    ((CleanupItems w3 cat0 true [itemScaleD]).2.store = w3.store)
    ∧ (DeleteResources w3 true gvkDep "ns").1.1 = (DeleteResources w3 false gvkDep "ns").1.1
    ∧ (ScaleItem w3 true gvkDep itemScaleD (some 0)).1.1
        = (ScaleItem w3 false gvkDep itemScaleD (some 0)).1.1
    ∧ (DeleteItem w3 true gvkDep itemScaleD).1.1 = (DeleteItem w3 false gvkDep itemScaleD).1.1 :=
  ⟨(c1_dry_run_amended.1 w3 cat0 [itemScaleD]).1,
   c1_dry_run_amended.2.2.2.2.2.2.1 w3 gvkDep "ns" (by decide),
   c1_dry_run_amended.2.2.2.2.2.2.2.1 w3 gvkDep itemScaleD (some 0) (fun _ => by decide),
   c1_dry_run_amended.2.2.2.2.2.2.2.2 w3 gvkDep itemScaleD (by decide) (by decide)⟩

/-- C2: the orchestrator attempts every item in list order and never aborts
early (one per-item result per item, and the loop over `xs ++ ys` is the loop
over `xs` followed by the loop over `ys` from the resulting world); the total
count is the sum of per-item counts; and the returned error is non-nil
exactly when some item produced an error, in which case it is the single
"N errors occurred during processing" error joining all failures. -/
theorem c2_orchestrator_aggregation :
    ∀ (w : World) (cat : Catalog) (dryRun : Bool) (items : List CleanupItem),
    (perItemResults cat dryRun w items).length = items.length
    ∧ (CleanupItems w cat dryRun items).1.1
        = ((perItemResults cat dryRun w items).map (·.1)).sum
    ∧ ((CleanupItems w cat dryRun items).1.2 = none
        ↔ ∀ r ∈ perItemResults cat dryRun w items, r.2 = [])
    ∧ ((cleanupLoop cat dryRun w items).1.2.length > 0 →
        (CleanupItems w cat dryRun items).1.2
          = some (toString (cleanupLoop cat dryRun w items).1.2.length
              ++ " errors occurred during processing: "
              ++ String.intercalate "\n" (cleanupLoop cat dryRun w items).1.2))
    ∧ (∀ xs ys : List CleanupItem,
        perItemResults cat dryRun w (xs ++ ys)
          = perItemResults cat dryRun w xs
              ++ perItemResults cat dryRun (cleanupLoop cat dryRun w xs).2 ys) := by
  intro w cat dryRun items
  refine ⟨perItemResults_length cat dryRun items w, ?_, ?_, ?_, ?_⟩
  · rw [cleanupItems_fst_count, cleanupLoop_count_sum]
  · exact (cleanupItems_err_none_iff w cat dryRun items).trans
      (cleanupLoop_errs_nil_iff cat dryRun items w)
  · exact cleanupItems_err_msg w cat dryRun items
  · intro xs ys
    exact perItemResults_append cat dryRun xs ys w

/-- C2 witness: the aggregation theorem applied to a concrete two-item run
with one failing item. -/
theorem c2_witness :
    (CleanupItems w3 cat0 false [itemScaleD, ⟨"", "", "", "", ""⟩]).1.1
      = ((perItemResults cat0 false w3 [itemScaleD, ⟨"", "", "", "", ""⟩]).map (·.1)).sum
    ∧ ((CleanupItems w3 cat0 false [itemScaleD, ⟨"", "", "", "", ""⟩]).1.2 = none
        ↔ ∀ r ∈ perItemResults cat0 false w3 [itemScaleD, ⟨"", "", "", "", ""⟩], r.2 = []) :=
  ⟨(c2_orchestrator_aggregation w3 cat0 false [itemScaleD, ⟨"", "", "", "", ""⟩]).2.1,
   (c2_orchestrator_aggregation w3 cat0 false [itemScaleD, ⟨"", "", "", "", ""⟩]).2.2.1⟩

/-- C3: a ScaleToZero item naming an existing Deployment, with dryRun=false,
returns (1, nil) and persists the update: the store afterwards shows the
target with its replica field set to 0. -/
theorem c3_scale_named_sets_zero :
    ∀ (w : World) (gvk : GVK) (item : CleanupItem) (r : Resource),
    gvk.kind = DeploymentKind →
    (item.name == "") = false →
    getResource w.store gvk.kind item.ns item.name = some r →
    (ScaleItem w false gvk item (some 0)).1 = (1, none)
    ∧ getResource (ScaleItem w false gvk item (some 0)).2.store
        gvk.kind item.ns item.name = some { r with replicas := some 0 } := by
  intro w gvk item r hdep hn hget
  have hk : gvk.kind = DeploymentKind ∨ gvk.kind = StatefulSetKind := Or.inl hdep
  have hsf := scaleKind_false_present w gvk item.ns item.name (some 0) hk hn r hget
  have hguard : (gvk.kind != DeploymentKind && gvk.kind != StatefulSetKind) = false := by
    rw [hdep]
    decide
  have hnamed : (item.name != "") = true := by
    simp [bne, hn]
  have h1 : (ScaleKind w false gvk item.ns item.name (some 0)).1.2 = none := by
    rw [hsf.1]
  have h2 : (ScaleKind w false gvk item.ns item.name (some 0)).1.1 = 1 := by
    rw [hsf.1]
  unfold ScaleItem
  dsimp only
  simp only [hguard, Bool.false_eq_true, if_neg, not_false_iff, hnamed, if_pos, h1, h2]
  refine ⟨by simp, ?_⟩
  rw [hsf.2, getResource_setReplicas_self, hget]
  rfl

/-- C3 witness: scaling the concrete Deployment ns/d from 3 replicas. -/
theorem c3_witness :
    (ScaleItem w3 false gvkDep itemScaleD (some 0)).1 = (1, none)
    ∧ getResource (ScaleItem w3 false gvkDep itemScaleD (some 0)).2.store
        "Deployment" "ns" "d" = some ⟨"Deployment", "ns", "d", some 0⟩ := by
  have h := c3_scale_named_sets_zero w3 gvkDep itemScaleD depD3 rfl rfl rfl
  exact ⟨h.1, h.2⟩

/-- C4: bulk delete over zero matches is success (0, nil), while named delete
of an absent target is a failure (0, non-nil error): deliberately asymmetric,
and independent of the dry-run flag. -/
theorem c4_zero_matches_asymmetry :
    ∀ (w : World) (dryRun : Bool) (gvk : GVK) (ns name : String),
    ((ListResources w gvk ns).1 = [] →
      (DeleteResources w dryRun gvk ns).1 = (0, none))
    ∧ (getResource w.store gvk.kind ns name = none →
      (DeleteNamedResource w dryRun gvk ns name).1.1 = 0
      ∧ (DeleteNamedResource w dryRun gvk ns name).1.2.isSome = true) := by
  intro w dryRun gvk ns name
  constructor
  · intro h
    have hlen : ((ListResources w gvk ns).1.length == 0) = true := by
      rw [h]
      rfl
    rw [dres_eq_zero w dryRun gvk ns hlen]
  · intro h
    unfold DeleteNamedResource clientGet
    dsimp only
    simp [h]

/-- C4 witness: an empty store has zero matches and no named target. -/
theorem c4_witness :
    (DeleteResources wEmptyStore false gvkDep "ns").1 = (0, none)
    ∧ (DeleteNamedResource wEmptyStore false gvkDep "ns" "d").1.1 = 0
    ∧ (DeleteNamedResource wEmptyStore false gvkDep "ns" "d").1.2.isSome = true :=
  ⟨(c4_zero_matches_asymmetry wEmptyStore false gvkDep "ns" "d").1 rfl,
   (c4_zero_matches_asymmetry wEmptyStore false gvkDep "ns" "d").2 rfl⟩

/-- C5 counterexample: ScaleNamed (here ScaleDeployment) with dryRun=true on
an ABSENT target does not fetch at all and returns (1, nil) with the world
untouched — the claim demands (0, non-nil error) for a missing target
regardless of the dry-run flag. -/
theorem c5_counterexample :
    getResource wEmptyStore.store DeploymentKind "ns" "d" = none
    ∧ (ScaleDeployment wEmptyStore true "ns" "d" (some 0)).1 = (1, none)
    ∧ (ScaleDeployment wEmptyStore true "ns" "d" (some 0)).2 = wEmptyStore :=
  ⟨rfl, rfl, rfl⟩

/-- C5 (amended): the dry-run check comes BEFORE the fetch: with a non-empty
name, dry-run returns (1, nil) immediately without touching the store (even
when the target is absent); only the non-dry-run path fetches — a fetch
failure (not-found) is then (0, error) with the store unchanged, and on a
successful fetch the replica field is set and persisted, returning (1, nil). -/
theorem c5_dry_run_before_fetch :
    ∀ (w : World) (gvk : GVK) (ns name : String) (reps : Option Int),
    (gvk.kind = DeploymentKind ∨ gvk.kind = StatefulSetKind) →
    (name == "") = false →
    ScaleKind w true gvk ns name reps = ((1, none), w)
    ∧ (getResource w.store gvk.kind ns name = none →
        (ScaleKind w false gvk ns name reps).1.1 = 0
        ∧ (ScaleKind w false gvk ns name reps).1.2.isSome = true
        ∧ (ScaleKind w false gvk ns name reps).2.store = w.store)
    ∧ (∀ r, getResource w.store gvk.kind ns name = some r →
        (ScaleKind w false gvk ns name reps).1 = (1, none)
        ∧ (ScaleKind w false gvk ns name reps).2.store
            = setReplicas w.store gvk.kind ns name reps) := by
  intro w gvk ns name reps hk hn
  exact ⟨scaleKind_true_named w gvk ns name reps hk hn,
    fun hget => scaleKind_false_absent w gvk ns name reps hk hn hget,
    fun r hget => scaleKind_false_present w gvk ns name reps hk hn r hget⟩

/-- C5 witness: the amended theorem at the concrete empty store (absent
target) and at the store holding the Deployment (present target). -/
theorem c5_witness :
    ScaleKind wEmptyStore true gvkDep "ns" "d" (some 0) = ((1, none), wEmptyStore)
    ∧ (ScaleKind wEmptyStore false gvkDep "ns" "d" (some 0)).1.1 = 0
    ∧ (ScaleKind w3 false gvkDep "ns" "d" (some 0)).1 = (1, none) :=
  ⟨(c5_dry_run_before_fetch wEmptyStore gvkDep "ns" "d" (some 0) (Or.inl rfl) rfl).1,
   ((c5_dry_run_before_fetch wEmptyStore gvkDep "ns" "d" (some 0) (Or.inl rfl) rfl).2.1 rfl).1,
   ((c5_dry_run_before_fetch w3 gvkDep "ns" "d" (some 0) (Or.inl rfl) rfl).2.2 depD3 rfl).1⟩

/-- C6 counterexample: with zero matching CRDs the call returns count 0 and
an error, but its message is "no CRDs found for category foo" — it does not
contain the claimed text "no matching types for category". -/
theorem c6_counterexample :
    (DeleteItem wEmptyStore false gvkCrd itemCrdFoo).1
      = (0, some "no CRDs found for category foo")
    ∧ strContains "no CRDs found for category foo" "no matching types for category"
        = false :=
  ⟨rfl, rfl⟩

/-- C6 (amended): when the resolved kind is CustomResourceDefinition and the
item's Category is non-empty: zero resolved types returns count 0 with the
error "no CRDs found for category <cat>"; one or more resolved types run one
bulk delete per type in the item's namespace, the returned count is the sum
of the error-free types' counts (a type returning an error has its count
skipped), and the returned error is nil exactly when every type succeeded,
otherwise the join of the per-type errors. -/
theorem c6_category_dispatch :
    ∀ (w : World) (dryRun : Bool) (gvk : GVK) (item : CleanupItem),
    (gvk.kind == CustomResourceDefinitionKind) = true →
    (item.category != "") = true →
    (((LookupCrdsByCategory w item.category).length == 0) = true →
      DeleteItem w dryRun gvk item
        = ((0, some ("no CRDs found for category " ++ item.category)), w))
    ∧ (((LookupCrdsByCategory w item.category).length == 0) = false →
      (DeleteItem w dryRun gvk item).1.1
        = ((perTypeResults dryRun item.ns w (LookupCrdsByCategory w item.category)).filterMap
            (fun r => if r.2 = none then some r.1 else none)).sum
      ∧ ((DeleteItem w dryRun gvk item).1.2 = none
          ↔ ∀ r ∈ perTypeResults dryRun item.ns w (LookupCrdsByCategory w item.category),
              r.2 = none)) := by
  intro w dryRun gvk item hk hcat
  have hcond : (gvk.kind == CustomResourceDefinitionKind && item.category != "") = true := by
    simp [hk, hcat]
  constructor
  · intro hempty
    unfold DeleteItem
    dsimp only
    simp only [hcond, if_pos, hempty]
  · intro hnonempty
    have hpt := crdLoop_perType dryRun item.ns (LookupCrdsByCategory w item.category) w
    unfold DeleteItem
    dsimp only
    simp only [hcond, if_pos, hnonempty, Bool.false_eq_true, if_neg, not_false_iff]
    exact ⟨hpt.1, (joinErrs_eq_none_iff _).trans hpt.2⟩

/-- C6 witness: one CRD of category "foo" with one instance: the bulk path
deletes it and the count is the per-type sum. -/
theorem c6_witness :
    (((LookupCrdsByCategory wCrd "foo").length == 0) = false)
    ∧ (DeleteItem wCrd false gvkCrd itemCrdFoo).1.1
        = ((perTypeResults false "" wCrd (LookupCrdsByCategory wCrd "foo")).filterMap
            (fun r => if r.2 = none then some r.1 else none)).sum :=
  ⟨by decide,
   ((c6_category_dispatch wCrd false gvkCrd itemCrdFoo rfl rfl).2 (by decide)).1⟩

/-- C7 counterexample: an item with the unknown (non-empty, unrecognized)
action "detach" contributes 0 to the count, but its error says "unsupported
action for item", which does not contain "action must be specified". -/
theorem c7_counterexample :
    (CleanupItems w3 cat0 false [⟨"Deployment", "ns", "d", "", "detach"⟩]).1.1 = 0
    ∧ (CleanupItems w3 cat0 false [⟨"Deployment", "ns", "d", "", "detach"⟩]).1.2
        = some ("1 errors occurred during processing: "
            ++ "unsupported action for item: Deployment ns d  detach")
    ∧ strContains ("1 errors occurred during processing: "
            ++ "unsupported action for item: Deployment ns d  detach")
        "action must be specified" = false :=
  ⟨rfl, rfl, rfl⟩

/-- C7 (amended): an item whose Action is neither "scaleToZero" nor "delete"
contributes 0 and produces exactly one error; when the Action is empty the
message contains "action must be specified", and when it is a non-empty
unrecognized value the message instead contains "unsupported action". -/
theorem c7_action_validation :
    ∀ (w : World) (cat : Catalog) (dryRun : Bool) (item : CleanupItem) (gvk : GVK),
    (item.kind == "") = false →
    LookupGroupKind cat item.kind = some gvk →
    (item.action == ActionScaleToZero) = false →
    (item.action == ActionDelete) = false →
    (processItem w cat dryRun item).1.1 = 0
    ∧ ((item.action == ActionUnknown) = true →
        (processItem w cat dryRun item).1.2
          = ["action must be specified for item: " ++ itemStr item]
        ∧ strContains ("action must be specified for item: " ++ itemStr item)
            "action must be specified" = true)
    ∧ ((item.action == ActionUnknown) = false →
        (processItem w cat dryRun item).1.2
          = ["unsupported action for item: " ++ itemStr item]
        ∧ strContains ("unsupported action for item: " ++ itemStr item)
            "unsupported action" = true) := by
  intro w cat dryRun item gvk hkind hlook hs hd
  have hmsg1 : strContains ("action must be specified for item: " ++ itemStr item)
      "action must be specified" = true := by
    apply strContains_of_data _ _ (" for item: ".data ++ (itemStr item).data)
    rw [String.data_append]
    rw [show "action must be specified for item: ".data
          = "action must be specified".data ++ " for item: ".data from rfl]
    rw [List.append_assoc]
  have hmsg2 : strContains ("unsupported action for item: " ++ itemStr item)
      "unsupported action" = true := by
    apply strContains_of_data _ _ (" for item: ".data ++ (itemStr item).data)
    rw [String.data_append]
    rw [show "unsupported action for item: ".data
          = "unsupported action".data ++ " for item: ".data from rfl]
    rw [List.append_assoc]
  refine ⟨?_, ?_, ?_⟩
  · unfold processItem
    dsimp only
    simp only [hkind, Bool.false_eq_true, if_neg, not_false_iff, hlook, hs, hd]
    by_cases hu : (item.action == ActionUnknown) = true
    · simp [hu]
    · rw [Bool.not_eq_true] at hu
      simp [hu]
  · intro hu
    unfold processItem
    dsimp only
    simp only [hkind, Bool.false_eq_true, if_neg, not_false_iff, hlook, hs, hd, hu]
    refine ⟨?_, hmsg1⟩
    simp
  · intro hu
    unfold processItem
    dsimp only
    simp only [hkind, Bool.false_eq_true, if_neg, not_false_iff, hlook, hs, hd, hu]
    refine ⟨?_, hmsg2⟩
    simp

/-- C7 witness: the amended theorem at a concrete empty-action item and a
concrete "detach" item. -/
theorem c7_witness :
    (processItem w3 cat0 false ⟨"Deployment", "ns", "d", "", ""⟩).1.1 = 0
    ∧ (processItem w3 cat0 false ⟨"Deployment", "ns", "d", "", ""⟩).1.2
        = ["action must be specified for item: "
            ++ itemStr ⟨"Deployment", "ns", "d", "", ""⟩]
    ∧ (processItem w3 cat0 false ⟨"Deployment", "ns", "d", "", "detach"⟩).1.2
        = ["unsupported action for item: "
            ++ itemStr ⟨"Deployment", "ns", "d", "", "detach"⟩] :=
  ⟨(c7_action_validation w3 cat0 false ⟨"Deployment", "ns", "d", "", ""⟩ gvkDep
      rfl rfl rfl rfl).1,
   ((c7_action_validation w3 cat0 false ⟨"Deployment", "ns", "d", "", ""⟩ gvkDep
      rfl rfl rfl rfl).2.1 rfl).1,
   ((c7_action_validation w3 cat0 false ⟨"Deployment", "ns", "d", "", "detach"⟩ gvkDep
      rfl rfl rfl rfl).2.2 rfl).1⟩

/-- C8: after any sequence of condition writes (starting from an empty
status), the conditions hold exactly one entry per written Type — never a
duplicate — and the entry for each Type is the latest write of that Type;
types never written are absent. -/
theorem c8_merge_by_type :
    ∀ (writes : List Condition) (t : String),
    (typesOf (writes.foldl setStatusCondition [])).Nodup
    ∧ (∀ c, lastWrite writes t = some c →
        findStatusCondition (writes.foldl setStatusCondition []) t = some c
        ∧ ((writes.foldl setStatusCondition []).filter
            (fun x => x.type_ == t)).length = 1)
    ∧ (lastWrite writes t = none →
        findStatusCondition (writes.foldl setStatusCondition []) t = none) := by
  intro writes t
  have h := foldl_ssc_spec t writes [] (by simp [typesOf])
  refine ⟨h.1, ?_, ?_⟩
  · intro c hc
    exact ⟨h.2.1 c hc, find_nodup_filter_len t _ h.1 c (h.2.1 c hc)⟩
  · intro hc
    rw [h.2.2 hc]
    rfl

/-- C8 witness: writing Complete twice (and Initialized once) keeps one entry
per type, reflecting the second Complete write. -/
theorem c8_witness :
    findStatusCondition
      ([⟨"Initialized", true, "Reconciling", "started"⟩,
        ⟨"Complete", true, "NoResources", "none"⟩,
        ⟨"Complete", true, "CompletedSuccessfully", "done"⟩].foldl
          setStatusCondition []) "Complete"
      = some ⟨"Complete", true, "CompletedSuccessfully", "done"⟩
    ∧ (([⟨"Initialized", true, "Reconciling", "started"⟩,
        ⟨"Complete", true, "NoResources", "none"⟩,
        ⟨"Complete", true, "CompletedSuccessfully", "done"⟩].foldl
          setStatusCondition []).filter
            (fun x => x.type_ == "Complete")).length = 1 :=
  (c8_merge_by_type
      [⟨"Initialized", true, "Reconciling", "started"⟩,
       ⟨"Complete", true, "NoResources", "none"⟩,
       ⟨"Complete", true, "CompletedSuccessfully", "done"⟩] "Complete").2.1
    ⟨"Complete", true, "CompletedSuccessfully", "done"⟩ (by decide)

/-- C9: reconciling a request with an empty Resources list returns success
and writes the Complete/NoResources condition — but the code's message is
"No resources specified for cleanup", not the claimed (and test-asserted)
"No resources specified for processing". -/
theorem c9_no_resources_message :
    (Reconcile wEmptyStore cat0 ⟨false, [], []⟩).1.2 = none
    ∧ (Reconcile wEmptyStore cat0 ⟨false, [], []⟩).1.1.conditions
        = [⟨"Initialized", true, "Reconciling", "Reconciliation started"⟩,
           ⟨"Complete", true, "NoResources", "No resources specified for cleanup"⟩]
    ∧ ("No resources specified for cleanup" == "No resources specified for processing")
        = false :=
  ⟨rfl, rfl, rfl⟩

/-- C10: when the initial fetch inside the named delete fails, no delete call
is issued, the store is unchanged, and the result is (0, error) — the named
path mutates only after a successful fetch. -/
theorem c10_named_delete_fetch_first :
    ∀ (w : World) (dryRun : Bool) (gvk : GVK) (ns name : String),
    getResource w.store gvk.kind ns name = none →
    (DeleteNamedResource w dryRun gvk ns name).1.1 = 0
    ∧ (DeleteNamedResource w dryRun gvk ns name).1.2.isSome = true
    ∧ (DeleteNamedResource w dryRun gvk ns name).2.store = w.store
    ∧ mutCalls (DeleteNamedResource w dryRun gvk ns name).2 = mutCalls w := by
  intro w dryRun gvk ns name h
  unfold DeleteNamedResource clientGet
  dsimp only
  simp only [h]
  refine ⟨?_, ?_, ?_, mutCalls_trace_get w gvk.kind ns name⟩ <;>
    first
    | rfl
    | simp

/-- C10 witness: the fetch-first theorem at a concrete absent target. -/
theorem c10_witness :
    (DeleteNamedResource w3 false gvkDep "ns" "missing").1.1 = 0
    ∧ (DeleteNamedResource w3 false gvkDep "ns" "missing").2.store = w3.store :=
  ⟨(c10_named_delete_fetch_first w3 false gvkDep "ns" "missing" rfl).1,
   (c10_named_delete_fetch_first w3 false gvkDep "ns" "missing" rfl).2.2.1⟩

end Quartz
